import Mathlib

/-!
# pkg/novel/search.go

A shallow embedding of the novel search client: the option mutators, the
query-string construction and transport sequence of `Search`, and the result
mapper `SearchResult.ForEach` / `SearchResult.Novels`.

The libraries the file calls (`strconv`, `net/url`, `gjson`, the `client`
package) are embedded as far as `search.go` uses them.
-/

set_option autoImplicit false

/-! ## strconv -/

namespace strconv

/-- Decimal rendering of a Go `int`, what `strconv.Itoa` returns. -/
def Itoa (i : Int) : String :=
  if i < 0 then "-" ++ Nat.repr i.natAbs else Nat.repr i.toNat

end strconv

/-! ## net/url -/

namespace url

/-- The type `url.Values` is `map[string][]string`.  The map is kept as an
association list in which a key is bound at most once. -/
structure Values where
  entries : List (String × List String)
deriving DecidableEq, Repr

/-- The literal `url.Values{}`. -/
def Values.empty : Values := ⟨[]⟩

/-- Map index `v[key]` with its presence flag: `none` when the key is unbound. -/
def Values.lookup (v : Values) (key : String) : Option (List String) :=
  (v.entries.find? (fun kv => kv.1 == key)).map (fun kv => kv.2)

/-- `Values.Has`: is the key bound. -/
def Values.Has (v : Values) (key : String) : Bool :=
  (v.lookup key).isSome

/-- `Values.Get`: the first value bound to the key, `""` when there is none. -/
def Values.Get (v : Values) (key : String) : String :=
  match v.lookup key with
  | some (x :: _) => x
  | _ => ""

/-- `Values.Set`: `v[key] = []string{value}`, replacing what was bound. -/
def Values.Set (v : Values) (key value : String) : Values :=
  ⟨(key, [value]) :: v.entries.filter (fun kv => !(kv.1 == key))⟩

/-- Upper-case hexadecimal digit, the table `upperhex` of net/url. -/
def upperhex (n : Nat) : Char :=
  if n < 10 then Char.ofNat (48 + n) else Char.ofNat (55 + n)

/-- The two escaping modes of net/url that apply to one piece of text placed in
a path or in a query string. -/
inductive encoding where
  | encodePathSegment
  | encodeQueryComponent
deriving DecidableEq, Repr

/-- The function `shouldEscape` of net/url on one byte, for the two modes above. -/
def shouldEscape (c : Nat) (mode : encoding) : Bool :=
  if (97 ≤ c ∧ c ≤ 122) ∨ (65 ≤ c ∧ c ≤ 90) ∨ (48 ≤ c ∧ c ≤ 57) then false
  else if c = 45 ∨ c = 95 ∨ c = 46 ∨ c = 126 then false
  else if c = 36 ∨ c = 38 ∨ c = 43 ∨ c = 44 ∨ c = 47 ∨ c = 58 ∨ c = 59 ∨ c = 61
      ∨ c = 63 ∨ c = 64 then
    match mode with
    | .encodePathSegment => decide (c = 47 ∨ c = 59 ∨ c = 44 ∨ c = 63)
    | .encodeQueryComponent => true
  else true

/-- One byte of the text, escaped as the function `escape` of net/url does. -/
def escapeByte (mode : encoding) (c : Nat) : List Char :=
  if shouldEscape c mode then
    if c = 32 ∧ mode = .encodeQueryComponent then [Char.ofNat 43]
    else [Char.ofNat 37, upperhex (c / 16), upperhex (c % 16)]
  else [Char.ofNat c]

/-- The function `escape` of net/url: every byte of the UTF-8 text in turn. -/
def escape (s : String) (mode : encoding) : String :=
  ⟨(s.data.flatMap (fun ch => String.utf8EncodeChar ch)).flatMap
    (fun b => escapeByte mode b.toNat)⟩

/-- `url.PathEscape`. -/
def PathEscape (s : String) : String := escape s .encodePathSegment

/-- `url.QueryEscape`. -/
def QueryEscape (s : String) : String := escape s .encodeQueryComponent

end url

/-! ## gjson

`gjson.Result` is embedded over the parsed document: a value of the document
together with the text gjson keeps in `Result.Raw` where an accessor returns
it.  Paths are the ones `search.go` uses: literal member names separated by
dots, and `#`. -/

namespace gjson

/-- A JSON value as gjson reports it. -/
inductive Value where
  /-- The literal `null`. -/
  | null
  /-- The literals `true` and `false`. -/
  | bool (b : Bool)
  /-- A number: `raw` is the text of the literal (`Result.Raw`), `int` the
  `int64` that `Result.Int` converts `Result.Num` to, `fmt` the text
  `strconv.FormatFloat(Num, 'f', -1, 64)`. -/
  | number (raw : String) (int : Int) (fmt : String)
  /-- A string, `str` its unescaped content (`Result.Str`). -/
  | string (str : String)
  /-- An array, `raw` its text in the document. -/
  | array (raw : String) (elems : List Value)
  /-- An object, `raw` its text in the document; `members` in document order,
  repeated names included. -/
  | object (raw : String) (members : List (String × Value))

/-- A `gjson.Result`: `none` is the zero `Result{}` that gjson returns for a
path that does not exist. -/
abbrev Result := Option Value

/-- `Result.Exists`. -/
def Result.Exists (t : Result) : Bool := t.isSome

/-- Is the byte a decimal digit. -/
def isDigit (c : Char) : Bool := decide (48 ≤ c.toNat ∧ c.toNat ≤ 57)

/-- The digit loop of gjson's `parseUint`, in `uint64` arithmetic. -/
def parseUintLoop : List Char → Nat → Option Nat
  | [], n => some n
  | c :: cs, n =>
    if isDigit c then parseUintLoop cs ((n * 10 + (c.toNat - 48)) % 2 ^ 64) else none

/-- The function `parseUint` of gjson. -/
def parseUint (s : String) : Option Nat :=
  match s.data with
  | [] => none
  | cs => parseUintLoop cs 0

/-- One path component applied to a value: in an object the first member of
that name; in an array `#` is the number of elements and a decimal index is
that element; nothing else has components.  (gjson looks for the first
bracket in the text of a value, so on a string whose content holds `[` it
answers `#` and decimal indices from that content; the embedding gives such
a string no components, which agrees with gjson on every member name.) -/
def Value.child (v : Value) (part : String) : Result :=
  match v with
  | .object _ members => (members.find? (fun kv => kv.1 == part)).map (fun kv => kv.2)
  | .array _ elems =>
    if part = "#" then
      some (.number (Nat.repr elems.length) elems.length (Nat.repr elems.length))
    else
      match parseUint part with
      | some n => if n < 2 ^ 63 then elems.get? n else none
      | none => none
  | _ => none

/-- The components of a dotted path. -/
def pathParts : List Char → List Char → List String
  | [], acc => [⟨acc.reverse⟩]
  | c :: cs, acc =>
    if c = Char.ofNat 46 then ⟨acc.reverse⟩ :: pathParts cs [] else pathParts cs (c :: acc)

/-- A path, given by its components, searched in a value as gjson's
`parseObject` and `parseArray` do: the last component selects a child; an
earlier component of an object is tried on every member of that name, in
document order, until the rest of the path is found under one of them; an
earlier component of an array is a decimal index (`#` is read only as a last
component). -/
def Value.get : List String → Value → Result
  | [], _ => none
  | [part], v => v.child part
  | part :: rest, v =>
    match v with
    | .object _ members =>
      members.findSome? (fun kv => if kv.1 == part then Value.get rest kv.2 else none)
    | .array _ elems =>
      if part = "#" then none
      else
        match parseUint part with
        | some n => if n < 2 ^ 63 then (elems.get? n).bind (Value.get rest) else none
        | none => none
    | _ => none

/-- `Result.Get` on a dotted path of literal names. -/
def Result.Get (t : Result) (path : String) : Result :=
  t.bind (Value.get (pathParts path.data []))

/-- The test `Result.String` makes on the raw text of a number: not empty, and
after an optional leading minus only digits. -/
def isIntegerText : List Char → Bool
  | [] => false
  | c :: cs => if c = Char.ofNat 45 then cs.all isDigit else (c :: cs).all isDigit

/-- `Result.String`. -/
def Result.String : Result → String
  | none => ""
  | some .null => ""
  | some (.bool b) => if b then "true" else "false"
  | some (.number raw _ fmt) => if isIntegerText raw.data then raw else fmt
  | some (.string str) => str
  | some (.array raw _) => raw
  | some (.object raw _) => raw

/-- Two's complement wrap-around of `int64` arithmetic. -/
def wrapInt64 (x : Int) : Int := (x + 2 ^ 63) % 2 ^ 64 - 2 ^ 63

/-- The digit loop of gjson's `parseInt`. -/
def parseIntLoop : List Char → Int → Option Int
  | [], n => some n
  | c :: cs, n =>
    if isDigit c then parseIntLoop cs (wrapInt64 (n * 10 + ((c.toNat : Int) - 48)))
    else none

/-- The function `parseInt` of gjson: value and success flag. -/
def parseInt (s : String) : Int × Bool :=
  let sign : Bool := match s.data with
    | c :: _ => decide (c = Char.ofNat 45)
    | [] => false
  let digits := if sign then s.data.drop 1 else s.data
  match digits with
  | [] => (0, false)
  | _ =>
    match parseIntLoop digits 0 with
    | some n => (if sign then wrapInt64 (n * -1) else n, true)
    | none => (0, false)

/-- `Result.Int`. -/
def Result.Int : Result → Int
  | some (.bool true) => 1
  | some (.string str) => (parseInt str).1
  | some (.number _ int _) => int
  | _ => 0

/-- `Result.Array`. -/
def Result.Array : Result → List Result
  | none => []
  | some .null => []
  | some (.array _ elems) => elems.map some
  | some v => [some v]

/-- The loop of `Result.ForEach`: the iterator is called on each pair in turn
until it returns false.  The iterator is a Go closure; the state it updates
is threaded through it. -/
def forEachLoop {σ : Type} (iterator : σ → Result → Result → σ × Bool) :
    List (Result × Result) → σ → σ
  | [], s => s
  | kv :: rest, s =>
    let r := iterator s kv.1 kv.2
    if r.2 then forEachLoop iterator rest r.1 else r.1

/-- The key gjson hands the iterator for the element at `index` of an array. -/
def indexKey (index : Nat) : Result :=
  some (.number "" index (Nat.repr index))

/-- `Result.ForEach`: nothing for a result that does not exist; one call with
the zero key for a value that is neither array nor object; otherwise one call
per element or member, in document order. -/
def Result.ForEach {σ : Type} (t : Result)
    (iterator : σ → Result → Result → σ × Bool) (s : σ) : σ :=
  match t with
  | none => s
  | some (.array _ elems) =>
    forEachLoop iterator (elems.enum.map (fun iv => (indexKey iv.1, some iv.2))) s
  | some (.object _ members) =>
    forEachLoop iterator (members.map (fun kv => (some (.string kv.1), some kv.2))) s
  | some v => (iterator s none (some v)).1

end gjson

/-! ## pkg/user and pkg/client -/

namespace user

/-- The fields of `user.User` that `search.go` sets. -/
structure User where
  ID : String
  Name : String
deriving DecidableEq, Repr

end user

namespace client

/-- The transport collaborator `client.Client`, as `Search` uses it.
`EndpointURL path q` stands for `c.EndpointURL(path, &q).String()`, and a
successful `GetWithContext` gives the body of the response. -/
structure Client (κ ε β : Type) where
  EndpointURL : String → url.Values → String
  GetWithContext : κ → String → Except ε β

/-- The package-level functions of `client` that `Search` calls. -/
structure Package (κ ε β : Type) where
  For : κ → Client κ ε β
  ParseAPIResult : β → Except ε gjson.Result

end client

/-! ## pkg/novel -/

namespace novel

/-- The fields of `Series` that `search.go` sets. -/
structure Series where
  ID : String
  Title : String
deriving DecidableEq, Repr

/-- The fields of `Novel` that `search.go` sets. -/
structure Novel where
  ID : String
  Title : String
  Description : String
  Author : user.User
  TextCount : Int
  BookmarkCount : Int
  Series : novel.Series
  Tags : List String
deriving DecidableEq, Repr

/-- SearchResult holds search data and provide useful methods. -/
structure SearchResult where
  JSON : gjson.Result

/-- ForEach iterates through novel data items. -/
def SearchResult.ForEach {σ : Type} (r : SearchResult)
    (iterator : σ → gjson.Result → gjson.Result → σ × Bool) (s : σ) : σ :=
  gjson.Result.ForEach (gjson.Result.Get r.JSON "novel.data") iterator s

/-- Go's `make([]T, 0, n)`: a run-time panic (`none`) when the capacity is
negative or larger than `maxCap`, the largest capacity the runtime allocates
for the element type. -/
def makeSlice {α : Type} (maxCap : Nat) (n : Int) : Option (List α) :=
  if n < 0 ∨ (maxCap : Int) < n then none else some []

/-- The loop `for index, v := range tagsData { tags[index] = v.String() }`. -/
def tagsLoop : List (Nat × gjson.Result) → List String → List String
  | [], tags => tags
  | iv :: rest, tags => tagsLoop rest (tags.set iv.1 (gjson.Result.String iv.2))

/-- The iterator closure of `Novels`; its state is the slice `ret`. -/
def novelsIterator (ret : List Novel) (_key value : gjson.Result) : List Novel × Bool :=
  let n : Novel :=
    { ID := gjson.Result.String (gjson.Result.Get value "id")
      Title := gjson.Result.String (gjson.Result.Get value "title")
      Description := gjson.Result.String (gjson.Result.Get value "Description")
      Author :=
        { ID := gjson.Result.String (gjson.Result.Get value "userId")
          Name := gjson.Result.String (gjson.Result.Get value "userName") }
      TextCount := gjson.Result.Int (gjson.Result.Get value "textCount")
      BookmarkCount := gjson.Result.Int (gjson.Result.Get value "bookmarkCount")
      Series :=
        { ID := gjson.Result.String (gjson.Result.Get value "seriesId")
          Title := gjson.Result.String (gjson.Result.Get value "seriesTitle") }
      Tags := [] }
  let tagsData := gjson.Result.Array (gjson.Result.Get value "tags")
  let tags := List.replicate tagsData.length ""
  let tags := tagsLoop tagsData.enum tags
  let n := { n with Tags := tags }
  (ret ++ [n], true)

/-- The capacity `Novels` asks for: `int(r.JSON.Get("#").Int())`. -/
def SearchResult.novelsCap (r : SearchResult) : Int :=
  gjson.Result.Int (gjson.Result.Get r.JSON "#")

/-- Novels appeared in the search result.  `none` is the panic of `make`. -/
def SearchResult.Novels (maxCap : Nat) (r : SearchResult) : Option (List Novel) :=
  match makeSlice maxCap r.novelsCap with
  | none => none
  | some ret => some (r.ForEach novelsIterator ret)

/-- `type Order string`. -/
abbrev Order := String

def OrderDateNull : Order := ""
def OrderDateAscending : Order := "date"
def OrderDateDescending : Order := "date_d"

/-- `type Lang string`. -/
abbrev Lang := String

def LangNull : Lang := ""
def LangZH : Lang := "zh"

/-- `type WorkLang string`. -/
abbrev WorkLang := String

def WorkLangNull : WorkLang := ""
def WorkLangZHCN : WorkLang := "zh-cn"

/-- SearchOptions for Search.  `Page` is a Go `int`; `Search` compares it and
prints it but does no arithmetic on it, so it is kept as an integer. -/
structure SearchOptions where
  Page : Int
  Order : Order
  Lang : Lang
  WorkLang : WorkLang
deriving DecidableEq, Repr

/-- The zero value `new(SearchOptions)` points to. -/
def SearchOptions.zero : SearchOptions := ⟨0, "", "", ""⟩

/-- SearchOption mutate SearchOptions. -/
abbrev SearchOption := SearchOptions → SearchOptions

/-- SearchOptionPage change page to retrive. -/
def SearchOptionPage (page : Int) : SearchOption :=
  fun so => { so with Page := page }

def SearchOptionOrder (order : Order) : SearchOption :=
  fun so => { so with Order := order }

def SearchOptionLang (lang : Lang) : SearchOption :=
  fun so => { so with Lang := lang }

def SearchOptionWorkLang (workLang : WorkLang) : SearchOption :=
  fun so => { so with WorkLang := workLang }

/-- What `Search` does to its collaborators, in the order it does it. -/
inductive Call (κ β : Type) where
  | EndpointURL (path : String) (q : url.Values)
  | GetWithContext (ctx : κ) (target : String)
  | ParseAPIResult (body : β)
  | Close (body : β)

/-- What a call of `Search` leaves: its two results and the calls it made. -/
structure SearchReturn (κ ε β : Type) where
  result : SearchResult
  err : Option ε
  calls : List (Call κ β)

/-- Lines 117-120 of `Search`: the mutators applied in order to the zero
options. -/
def applyOptions (opts : List SearchOption) : SearchOptions :=
  opts.foldl (fun so i => i so) SearchOptions.zero

/-- Lines 117-123 of `Search`: the options after the mutators, with the page
brought up to 1. -/
def searchArgs (opts : List SearchOption) : SearchOptions :=
  let args := applyOptions opts
  if args.Page < 1 then { args with Page := 1 } else args

/-- Lines 125-137 of `Search`: the query parameters. -/
def searchValues (args : SearchOptions) : url.Values :=
  let q := url.Values.empty
  let q := if args.Page ≠ 1 then q.Set "p" (strconv.Itoa args.Page) else q
  let q := if args.Order ≠ OrderDateNull then q.Set "order" args.Order else q
  let q := if args.Lang ≠ LangNull then q.Set "lang" args.Lang else q
  let q := if args.WorkLang ≠ WorkLangNull then q.Set "work_lang" args.WorkLang else q
  q

/-- Search calls pixiv novel search api. -/
def Search {κ ε β : Type} (pkg : client.Package κ ε β) (ctx : κ) (query : String)
    (opts : List SearchOption) : SearchReturn κ ε β :=
  let args := searchArgs opts
  let q := searchValues args
  let c := pkg.For ctx
  let path := "/ajax/search/novels/" ++ query
  let target := c.EndpointURL path q
  match c.GetWithContext ctx target with
  | .error err =>
    { result := ⟨none⟩, err := some err,
      calls := [.EndpointURL path q, .GetWithContext ctx target] }
  | .ok body =>
    match pkg.ParseAPIResult body with
    | .error err =>
      { result := ⟨none⟩, err := some err,
        calls := [.EndpointURL path q, .GetWithContext ctx target,
          .ParseAPIResult body, .Close body] }
    | .ok doc =>
      { result := ⟨doc⟩, err := none,
        calls := [.EndpointURL path q, .GetWithContext ctx target,
          .ParseAPIResult body, .Close body] }

/-- The path and the query parameters `Search` handed to `EndpointURL`. -/
def SearchReturn.endpoint {κ ε β : Type} (r : SearchReturn κ ε β) :
    Option (String × url.Values) :=
  r.calls.findSome? (fun call =>
    match call with
    | .EndpointURL path q => some (path, q)
    | _ => none)

/-- The query parameters `Search` handed to `EndpointURL`. -/
def SearchReturn.query {κ ε β : Type} (r : SearchReturn κ ε β) : Option url.Values :=
  r.endpoint.map (fun e => e.2)

/-- The resource path `Search` handed to `EndpointURL`. -/
def SearchReturn.path {κ ε β : Type} (r : SearchReturn κ ε β) : Option String :=
  r.endpoint.map (fun e => e.1)

/-- A transport double whose every request fails: it joins path and nothing
else into the address and answers each request with the error `"offline"`. -/
def offline : client.Package Unit String String :=
  { For := fun _ =>
      { EndpointURL := fun path _ => "https://www.pixiv.net" ++ path
        GetWithContext := fun _ _ => .error "offline" }
    ParseAPIResult := fun _ => .error "unparsed" }

/-- The projection of one entry of `novel.data` in the words of the
specification (sections 3, 4.2 and 6): each field is read at its key through
the defensive accessor, and the tags are the string values of the elements of
`tags`, in order. -/
def specProjection (value : gjson.Result) : Novel :=
  { ID := gjson.Result.String (gjson.Result.Get value "id")
    Title := gjson.Result.String (gjson.Result.Get value "title")
    Description := gjson.Result.String (gjson.Result.Get value "Description")
    Author :=
      { ID := gjson.Result.String (gjson.Result.Get value "userId")
        Name := gjson.Result.String (gjson.Result.Get value "userName") }
    TextCount := gjson.Result.Int (gjson.Result.Get value "textCount")
    BookmarkCount := gjson.Result.Int (gjson.Result.Get value "bookmarkCount")
    Series :=
      { ID := gjson.Result.String (gjson.Result.Get value "seriesId")
        Title := gjson.Result.String (gjson.Result.Get value "seriesTitle") }
    Tags := (gjson.Result.Array (gjson.Result.Get value "tags")).map gjson.Result.String }

/-- The document `{"novel":{"data":D}}` for an array `D` of text `dataRaw`
and elements `entries`. -/
def envelope (dataRaw : String) (entries : List gjson.Value) : gjson.Result :=
  some (.object ("\x7b\"novel\":\x7b\"data\":" ++ dataRaw ++ "\x7d\x7d")
    [("novel", .object ("\x7b\"data\":" ++ dataRaw ++ "\x7d")
      [("data", .array dataRaw entries)])])

/-- The document `{"#":-1,"novel":{"data":D}}`: the envelope with a member
named `#` in front. -/
def hintedEnvelope (dataRaw : String) (entries : List gjson.Value) : gjson.Result :=
  some (.object ("\x7b\"#\":-1,\"novel\":\x7b\"data\":" ++ dataRaw ++ "\x7d\x7d")
    [("#", .number "-1" (-1) "-1"),
     ("novel", .object ("\x7b\"data\":" ++ dataRaw ++ "\x7d")
      [("data", .array dataRaw entries)])])

/-- The entry of the specification's example,
`{"id":"1","title":"T","userId":"u1","userName":"A","tags":["x","y"]}`. -/
def specEntry : gjson.Value :=
  .object
    "\x7b\"id\":\"1\",\"title\":\"T\",\"userId\":\"u1\",\"userName\":\"A\",\"tags\":[\"x\",\"y\"]\x7d"
    [("id", .string "1"), ("title", .string "T"), ("userId", .string "u1"),
     ("userName", .string "A"),
     ("tags", .array "[\"x\",\"y\"]" [.string "x", .string "y"])]

/-- The document of the specification's example. -/
def specDocument : gjson.Result :=
  envelope
    "[\x7b\"id\":\"1\",\"title\":\"T\",\"userId\":\"u1\",\"userName\":\"A\",\"tags\":[\"x\",\"y\"]\x7d]"
    [specEntry]

/-- The entry `{"id":7,"title":true,"textCount":"42","bookmarkCount":true}`,
each field of a JSON type other than the one the mapper converts to. -/
def mistypedEntry : gjson.Value :=
  .object "\x7b\"id\":7,\"title\":true,\"textCount\":\"42\",\"bookmarkCount\":true\x7d"
    [("id", .number "7" 7 "7"), ("title", .bool true), ("textCount", .string "42"),
     ("bookmarkCount", .bool true)]

/-- The document whose `novel.data` holds the mistyped entry alone. -/
def mistypedDocument : gjson.Result :=
  envelope "[\x7b\"id\":7,\"title\":true,\"textCount\":\"42\",\"bookmarkCount\":true\x7d]"
    [mistypedEntry]

/-- The entry `{"id":"9","tags":["x","y","x"]}`, a tag repeated. -/
def repeatedTagsEntry : gjson.Value :=
  .object "\x7b\"id\":\"9\",\"tags\":[\"x\",\"y\",\"x\"]\x7d"
    [("id", .string "9"),
     ("tags", .array "[\"x\",\"y\",\"x\"]" [.string "x", .string "y", .string "x"])]

/-- Each mapped field of `n` is what its accessor returns at the field's key
in the entry `value`: `String` at `id`, `title`, `Description`, `userId`,
`userName`, `seriesId`, `seriesTitle`, and `Int` at `textCount`,
`bookmarkCount`. -/
def FieldsRead (value : gjson.Result) (n : Novel) : Prop :=
  n.ID = gjson.Result.String (gjson.Result.Get value "id") ∧
  n.Title = gjson.Result.String (gjson.Result.Get value "title") ∧
  n.Description = gjson.Result.String (gjson.Result.Get value "Description") ∧
  n.Author.ID = gjson.Result.String (gjson.Result.Get value "userId") ∧
  n.Author.Name = gjson.Result.String (gjson.Result.Get value "userName") ∧
  n.Series.ID = gjson.Result.String (gjson.Result.Get value "seriesId") ∧
  n.Series.Title = gjson.Result.String (gjson.Result.Get value "seriesTitle") ∧
  n.TextCount = gjson.Result.Int (gjson.Result.Get value "textCount") ∧
  n.BookmarkCount = gjson.Result.Int (gjson.Result.Get value "bookmarkCount")

/-- Each mapped field of `n` is the zero value of its type (the empty string,
the integer zero) when what the entry `value` has at the field's key is
`missing`. -/
def ZeroWhere (missing : gjson.Result → Prop) (value : gjson.Result) (n : Novel) : Prop :=
  (missing (gjson.Result.Get value "id") → n.ID = "") ∧
  (missing (gjson.Result.Get value "title") → n.Title = "") ∧
  (missing (gjson.Result.Get value "Description") → n.Description = "") ∧
  (missing (gjson.Result.Get value "userId") → n.Author.ID = "") ∧
  (missing (gjson.Result.Get value "userName") → n.Author.Name = "") ∧
  (missing (gjson.Result.Get value "seriesId") → n.Series.ID = "") ∧
  (missing (gjson.Result.Get value "seriesTitle") → n.Series.Title = "") ∧
  (missing (gjson.Result.Get value "textCount") → n.TextCount = 0) ∧
  (missing (gjson.Result.Get value "bookmarkCount") → n.BookmarkCount = 0)

end novel

/-! ## Observing iterators, transports and mutator sequences -/

namespace gjson

/-- The pairs `Result.ForEach` has to offer its iterator, in the order it
offers them: none for a result that does not exist, the value itself under
the zero key for a value that is neither array nor object, the elements under
their indices for an array, the members under their names for an object. -/
def Result.pairs : Result → List (Result × Result)
  | none => []
  | some (.array _ elems) => elems.enum.map (fun iv => (indexKey iv.1, some iv.2))
  | some (.object _ members) => members.map (fun kv => (some (.string kv.1), some kv.2))
  | some v => [(none, some v)]

/-- An iterator that, besides what `iterator` does to its own state, writes
down each pair it is called on. -/
def recording {σ : Type} (iterator : σ → Result → Result → σ × Bool) :
    σ × List (Result × Result) → Result → Result → (σ × List (Result × Result)) × Bool :=
  fun st key value =>
    let r := iterator st.1 key value
    ((r.1, st.2 ++ [(key, value)]), r.2)

end gjson

namespace novel

/-- A transport double whose request succeeds with the body `"body"` and
whose parser gives `answer` for it. -/
def served (answer : Except String gjson.Result) : client.Package Unit String String :=
  { For := fun _ =>
      { EndpointURL := fun path _ => "https://www.pixiv.net" ++ path
        GetWithContext := fun _ _ => .ok "body" }
    ParseAPIResult := fun _ => answer }

/-- The bodies `Search` closed, in the order it closed them. -/
def SearchReturn.closed {κ ε β : Type} (r : SearchReturn κ ε β) : List β :=
  r.calls.filterMap (fun call =>
    match call with
    | .Close body => some body
    | _ => none)

/-- The bodies `Search` handed to the envelope parser. -/
def SearchReturn.parsed {κ ε β : Type} (r : SearchReturn κ ε β) : List β :=
  r.calls.filterMap (fun call =>
    match call with
    | .ParseAPIResult body => some body
    | _ => none)

/-- The address `Search` requests for a query and options. -/
def searchTarget {κ ε β : Type} (pkg : client.Package κ ε β) (ctx : κ) (query : String)
    (opts : List SearchOption) : String :=
  (pkg.For ctx).EndpointURL ("/ajax/search/novels/" ++ query) (searchValues (searchArgs opts))

/-- The four fields of `SearchOptions`. -/
inductive Field where
  | Page
  | Order
  | Lang
  | WorkLang
deriving DecidableEq, Repr

/-- A call of one of the four mutator constructors, with its argument. -/
inductive Mutator where
  | Page (page : Int)
  | Order (order : Order)
  | Lang (lang : Lang)
  | WorkLang (workLang : WorkLang)
deriving DecidableEq, Repr

/-- The mutator the call constructs. -/
def Mutator.run : Mutator → SearchOption
  | .Page page => SearchOptionPage page
  | .Order order => SearchOptionOrder order
  | .Lang lang => SearchOptionLang lang
  | .WorkLang workLang => SearchOptionWorkLang workLang

/-- The field the mutator targets. -/
def Mutator.field : Mutator → Field
  | .Page _ => .Page
  | .Order _ => .Order
  | .Lang _ => .Lang
  | .WorkLang _ => .WorkLang

/-- The argument of the last `SearchOptionPage` of the sequence, if any. -/
def lastPage : List Mutator → Option Int
  | [] => none
  | m :: ms =>
    match lastPage ms with
    | some page => some page
    | none =>
      match m with
      | .Page page => some page
      | _ => none

/-- The argument of the last `SearchOptionOrder` of the sequence, if any. -/
def lastOrder : List Mutator → Option Order
  | [] => none
  | m :: ms =>
    match lastOrder ms with
    | some order => some order
    | none =>
      match m with
      | .Order order => some order
      | _ => none

/-- The argument of the last `SearchOptionLang` of the sequence, if any. -/
def lastLang : List Mutator → Option Lang
  | [] => none
  | m :: ms =>
    match lastLang ms with
    | some lang => some lang
    | none =>
      match m with
      | .Lang lang => some lang
      | _ => none

/-- The argument of the last `SearchOptionWorkLang` of the sequence, if any. -/
def lastWorkLang : List Mutator → Option WorkLang
  | [] => none
  | m :: ms =>
    match lastWorkLang ms with
    | some workLang => some workLang
    | none =>
      match m with
      | .WorkLang workLang => some workLang
      | _ => none

/-- The options in the words of the specification: each field the argument of
the last mutator of the sequence that targets it, or the zero value. -/
def specOptions (ms : List Mutator) : SearchOptions :=
  { Page := (lastPage ms).getD 0
    Order := (lastOrder ms).getD ""
    Lang := (lastLang ms).getD ""
    WorkLang := (lastWorkLang ms).getD "" }

/-- The object `{"id":"N"}` for a one-letter id. -/
def idEntry (id : String) : gjson.Value :=
  .object ("\x7b\"id\":\"" ++ id ++ "\"\x7d") [("id", .string id)]

/-- The document `{"novel":{"data":[{"id":"a"},{"id":"b"},{"id":"c"}]}}`. -/
def threeDocument : gjson.Result :=
  envelope "[\x7b\"id\":\"a\"\x7d,\x7b\"id\":\"b\"\x7d,\x7b\"id\":\"c\"\x7d]"
    [idEntry "a", idEntry "b", idEntry "c"]

/-- The entry `{"description":"d"}`: the lower-case name alone. -/
def lowerDescriptionEntry : gjson.Value :=
  .object "\x7b\"description\":\"d\"\x7d" [("description", .string "d")]

/-- The entry `{"description":"d","Description":"D"}`: both spellings. -/
def bothDescriptionsEntry : gjson.Value :=
  .object "\x7b\"description\":\"d\",\"Description\":\"D\"\x7d"
    [("description", .string "d"), ("Description", .string "D")]

/-- The document whose `novel.data` holds the entry with a repeated tag and
then the entry `{"id":"a"}`, which has no tags. -/
def repeatedTagsDocument : gjson.Result :=
  envelope "[\x7b\"id\":\"9\",\"tags\":[\"x\",\"y\",\"x\"]\x7d,\x7b\"id\":\"a\"\x7d]"
    [repeatedTagsEntry, idEntry "a"]

/-- The document whose `novel.data` holds the entry with the lower-case
`description` alone and then the entry with both spellings. -/
def descriptionDocument : gjson.Result :=
  envelope
    "[\x7b\"description\":\"d\"\x7d,\x7b\"description\":\"d\",\"Description\":\"D\"\x7d]"
    [lowerDescriptionEntry, bothDescriptionsEntry]

/-- The entry `{"id":1.50,"textCount":"9223372036854775808"}`: a number that
is not an integer literal where a string is mapped, and a string of digits
beyond `int64` where an integer is mapped. -/
def fractionEntry : gjson.Value :=
  .object "\x7b\"id\":1.50,\"textCount\":\"9223372036854775808\"\x7d"
    [("id", .number "1.50" 1 "1.5"), ("textCount", .string "9223372036854775808")]

/-- The document whose `novel.data` holds the mistyped entry and then the
entry above. -/
def convertedDocument : gjson.Result :=
  envelope
    ("[\x7b\"id\":7,\"title\":true,\"textCount\":\"42\",\"bookmarkCount\":true\x7d,"
      ++ "\x7b\"id\":1.50,\"textCount\":\"9223372036854775808\"\x7d]")
    [mistypedEntry, fractionEntry]

/-- The Tags of `n` are read from `tags` of the entry `value`: for an array
the string values of its elements, as many and in the same order, and the
empty sequence when `tags` is absent. -/
def TagsRead (value : gjson.Result) (n : Novel) : Prop :=
  (∀ (raw : String) (elems : List gjson.Value),
    gjson.Result.Get value "tags" = some (.array raw elems) →
    n.Tags = elems.map (fun v => gjson.Result.String (some v)) ∧
    n.Tags.length = elems.length) ∧
  (gjson.Result.Get value "tags" = none → n.Tags = [])

/-- The Description of `n` is read from the entry `value` at the key spelled
`Description`: for an object it is the string value of the first member of
exactly that name, and empty when no member has that name. -/
def DescriptionRead (value : gjson.Result) (n : Novel) : Prop :=
  n.Description = gjson.Result.String (gjson.Result.Get value "Description") ∧
  (∀ (raw : String) (members : List (String × gjson.Value)),
    value = some (.object raw members) →
    n.Description = gjson.Result.String
      ((members.find? (fun kv => kv.1 == "Description")).map (fun kv => kv.2)) ∧
    ((∀ kv ∈ members, kv.1 ≠ "Description") → n.Description = ""))

/-- The document `{"#":-1}`: no `novel` member, and a member named `#`. -/
def hintOnlyDocument : gjson.Result :=
  some (.object "\x7b\"#\":-1\x7d" [("#", .number "-1" (-1) "-1")])

end novel

/-! ## Theorems: the query builder -/

namespace url

theorem find_filter_other (key key2 : String) (h : ¬ key2 = key)
    (l : List (String × List String)) :
    (l.filter (fun kv => !(kv.1 == key))).find? (fun kv => kv.1 == key2)
      = l.find? (fun kv => kv.1 == key2) := by
  induction l with
  | nil => rfl
  | cons kv rest ih =>
    by_cases e : kv.1 = key
    · have b1 : (kv.1 == key) = true := by simpa using e
      have b2 : (kv.1 == key2) = false := by
        simpa using fun e3 : kv.1 = key2 => h (e3.symm.trans e)
      simp only [List.filter_cons, List.find?_cons, b1, b2, Bool.not_true,
        Bool.false_eq_true, if_false, ih]
    · have b1 : (kv.1 == key) = false := by simpa using e
      by_cases e2 : kv.1 = key2
      · have b2 : (kv.1 == key2) = true := by simpa using e2
        simp only [List.filter_cons, List.find?_cons, b1, b2, Bool.not_false, if_true]
      · have b2 : (kv.1 == key2) = false := by simpa using e2
        simp only [List.filter_cons, List.find?_cons, b1, b2, Bool.not_false, if_true, ih]

theorem Values.lookup_Set (v : Values) (key value key2 : String) :
    (v.Set key value).lookup key2 = if key2 = key then some [value] else v.lookup key2 := by
  unfold Values.lookup Values.Set
  by_cases h : key2 = key
  · subst h
    simp
  · have h2 : ¬ key = key2 := fun e => h e.symm
    rw [if_neg h]
    show Option.map _ (List.find? _ ((key, [value]) :: _)) = _
    rw [List.find?_cons]
    have h3 : ((key, [value]).1 == key2) = false := by simpa using h2
    rw [h3]
    show Option.map _ (List.find? _ (List.filter _ v.entries)) = _
    rw [find_filter_other key key2 h]

theorem Values.lookup_empty (key : String) : Values.empty.lookup key = none := rfl

end url

namespace novel

theorem Search_endpoint {κ ε β : Type} (pkg : client.Package κ ε β) (ctx : κ)
    (query : String) (opts : List SearchOption) :
    (Search pkg ctx query opts).endpoint
      = some ("/ajax/search/novels/" ++ query, searchValues (searchArgs opts)) := by
  unfold Search SearchReturn.endpoint
  simp only []
  split
  · rfl
  · split <;> rfl

theorem Search_query {κ ε β : Type} (pkg : client.Package κ ε β) (ctx : κ)
    (query : String) (opts : List SearchOption) :
    (Search pkg ctx query opts).query = some (searchValues (searchArgs opts)) := by
  simp [SearchReturn.query, Search_endpoint]

theorem searchValues_p (args : SearchOptions) :
    (searchValues args).lookup "p"
      = if args.Page = 1 then none else some [strconv.Itoa args.Page] := by
  unfold searchValues
  simp only []
  split_ifs <;> simp_all [url.Values.lookup_Set, url.Values.lookup_empty]

theorem searchValues_order (args : SearchOptions) :
    (searchValues args).lookup "order"
      = if args.Order = "" then none else some [args.Order] := by
  unfold searchValues
  simp only [OrderDateNull, LangNull, WorkLangNull]
  split_ifs <;> simp_all [url.Values.lookup_Set, url.Values.lookup_empty]

theorem searchValues_lang (args : SearchOptions) :
    (searchValues args).lookup "lang"
      = if args.Lang = "" then none else some [args.Lang] := by
  unfold searchValues
  simp only [OrderDateNull, LangNull, WorkLangNull]
  split_ifs <;> simp_all [url.Values.lookup_Set, url.Values.lookup_empty]

theorem searchValues_work_lang (args : SearchOptions) :
    (searchValues args).lookup "work_lang"
      = if args.WorkLang = "" then none else some [args.WorkLang] := by
  unfold searchValues
  simp only [OrderDateNull, LangNull, WorkLangNull]
  split_ifs <;> simp_all [url.Values.lookup_Set, url.Values.lookup_empty]

theorem searchArgs_Page (opts : List SearchOption) :
    (searchArgs opts).Page
      = if (applyOptions opts).Page < 1 then 1 else (applyOptions opts).Page := by
  unfold searchArgs
  simp only []
  split_ifs <;> rfl

theorem searchArgs_Order (opts : List SearchOption) :
    (searchArgs opts).Order = (applyOptions opts).Order := by
  unfold searchArgs
  simp only []
  split_ifs <;> rfl

theorem searchArgs_Lang (opts : List SearchOption) :
    (searchArgs opts).Lang = (applyOptions opts).Lang := by
  unfold searchArgs
  simp only []
  split_ifs <;> rfl

theorem searchArgs_WorkLang (opts : List SearchOption) :
    (searchArgs opts).WorkLang = (applyOptions opts).WorkLang := by
  unfold searchArgs
  simp only []
  split_ifs <;> rfl

theorem Search_p_of_options {κ ε β : Type} (pkg : client.Package κ ε β) (ctx : κ)
    (query : String) (opts : List SearchOption) :
    ∃ q, (Search pkg ctx query opts).query = some q ∧
      q.lookup "p" = if 2 ≤ (applyOptions opts).Page
        then some [strconv.Itoa (applyOptions opts).Page] else none := by
  refine ⟨_, Search_query pkg ctx query opts, ?_⟩
  rw [searchValues_p, searchArgs_Page]
  by_cases h : (applyOptions opts).Page < 1
  · have h2 : ¬ 2 ≤ (applyOptions opts).Page := by omega
    simp [h, h2]
  · by_cases h1 : (applyOptions opts).Page = 1
    · simp [h1]
    · have h2 : 2 ≤ (applyOptions opts).Page := by omega
      simp [h, h1, h2]

/-- C1: the query parameters `Search` hands to the transport hold `p` exactly
when the page left by the mutators is at least 2, and then `p` is bound to the
decimal rendering of that page and nothing else; `SearchOptionPage(1)` and
`SearchOptionPage(n)` for every `n <= 0` give no `p`, `SearchOptionPage(3)`
gives `p=3`. -/
theorem Search_page_parameter {κ ε β : Type} (pkg : client.Package κ ε β) (ctx : κ)
    (query : String) :
    (∀ opts : List SearchOption, ∃ q, (Search pkg ctx query opts).query = some q ∧
      (q.Has "p" = true ↔ 2 ≤ (applyOptions opts).Page) ∧
      q.lookup "p" = if 2 ≤ (applyOptions opts).Page
        then some [strconv.Itoa (applyOptions opts).Page] else none) ∧
    (∃ q, (Search pkg ctx query [SearchOptionPage 1]).query = some q ∧
      q.Has "p" = false) ∧
    (∀ n : Int, n ≤ 0 → ∃ q, (Search pkg ctx query [SearchOptionPage n]).query = some q ∧
      q.Has "p" = false) ∧
    (∃ q, (Search pkg ctx query [SearchOptionPage 3]).query = some q ∧
      q.lookup "p" = some ["3"] ∧ q.Get "p" = "3") := by
  refine ⟨?_, ?_, ?_, ?_⟩
  · intro opts
    obtain ⟨q, hq, hp⟩ := Search_p_of_options pkg ctx query opts
    refine ⟨q, hq, ?_, hp⟩
    unfold url.Values.Has
    rw [hp]
    split_ifs with h <;> simp [h]
  · obtain ⟨q, hq, hp⟩ := Search_p_of_options pkg ctx query [SearchOptionPage 1]
    refine ⟨q, hq, ?_⟩
    unfold url.Values.Has
    rw [hp]
    rfl
  · intro n hn
    obtain ⟨q, hq, hp⟩ := Search_p_of_options pkg ctx query [SearchOptionPage n]
    refine ⟨q, hq, ?_⟩
    unfold url.Values.Has
    rw [hp]
    have h2 : ¬ 2 ≤ (applyOptions [SearchOptionPage n]).Page := by
      show ¬ 2 ≤ n
      omega
    simp [h2]
  · obtain ⟨q, hq, hp⟩ := Search_p_of_options pkg ctx query [SearchOptionPage 3]
    have h3 : q.lookup "p" = some ["3"] := by
      rw [hp]
      rfl
    refine ⟨q, hq, h3, ?_⟩
    unfold url.Values.Get
    rw [h3]

/-- C1, at a page below one: `SearchOptionPage(-2)` leaves no `p`. -/
theorem Search_page_parameter_witness :
    (-2 : Int) ≤ 0 ∧ ∃ q, (Search offline () "abc" [SearchOptionPage (-2)]).query = some q ∧
      q.Has "p" = false :=
  ⟨by decide, (Search_page_parameter offline () "abc").2.2.1 (-2) (by decide)⟩

/-- C2: the query parameters `Search` hands to the transport hold `order`
exactly when the order left by the mutators is not the empty string, and then
`order` is bound to that value and nothing else; `OrderDateDescending` gives
`order=date_d` and `OrderDateAscending` gives `order=date`. -/
theorem Search_order_parameter {κ ε β : Type} (pkg : client.Package κ ε β) (ctx : κ)
    (query : String) :
    (∀ opts : List SearchOption, ∃ q, (Search pkg ctx query opts).query = some q ∧
      (q.Has "order" = true ↔ (applyOptions opts).Order ≠ OrderDateNull) ∧
      q.lookup "order" = if (applyOptions opts).Order = OrderDateNull then none
        else some [(applyOptions opts).Order]) ∧
    (∃ q, (Search pkg ctx query [SearchOptionOrder OrderDateDescending]).query = some q ∧
      q.lookup "order" = some ["date_d"] ∧ q.Get "order" = "date_d") ∧
    (∃ q, (Search pkg ctx query [SearchOptionOrder OrderDateAscending]).query = some q ∧
      q.lookup "order" = some ["date"] ∧ q.Get "order" = "date") := by
  have key : ∀ opts : List SearchOption,
      (searchValues (searchArgs opts)).lookup "order"
        = if (applyOptions opts).Order = OrderDateNull then none
          else some [(applyOptions opts).Order] := by
    intro opts
    rw [searchValues_order, searchArgs_Order]
    rfl
  refine ⟨?_, ?_, ?_⟩
  · intro opts
    refine ⟨_, Search_query pkg ctx query opts, ?_, key opts⟩
    unfold url.Values.Has
    rw [key opts]
    split_ifs with h <;> simp [h]
  · have h3 := key [SearchOptionOrder OrderDateDescending]
    have h4 : (searchValues (searchArgs [SearchOptionOrder OrderDateDescending])).lookup
        "order" = some ["date_d"] := by
      rw [h3]
      rfl
    refine ⟨_, Search_query pkg ctx query _, h4, ?_⟩
    unfold url.Values.Get
    rw [h4]
  · have h3 := key [SearchOptionOrder OrderDateAscending]
    have h4 : (searchValues (searchArgs [SearchOptionOrder OrderDateAscending])).lookup
        "order" = some ["date"] := by
      rw [h3]
      rfl
    refine ⟨_, Search_query pkg ctx query _, h4, ?_⟩
    unfold url.Values.Get
    rw [h4]

/-- C3: the query parameters `Search` hands to the transport hold `lang`
exactly when the result language of the options is not the empty string, bound
to that language, and `work_lang` exactly when the work language is not the
empty string, bound to that work language, whatever the other fields are;
`LangZH` gives `lang=zh` and `WorkLangZHCN` gives `work_lang=zh-cn`. -/
theorem Search_lang_parameters {κ ε β : Type} (pkg : client.Package κ ε β) (ctx : κ)
    (query : String) :
    (∀ opts : List SearchOption, ∃ q, (Search pkg ctx query opts).query = some q ∧
      (q.Has "lang" = true ↔ (applyOptions opts).Lang ≠ LangNull) ∧
      (q.lookup "lang" = if (applyOptions opts).Lang = LangNull then none
        else some [(applyOptions opts).Lang]) ∧
      (q.Has "work_lang" = true ↔ (applyOptions opts).WorkLang ≠ WorkLangNull) ∧
      (q.lookup "work_lang" = if (applyOptions opts).WorkLang = WorkLangNull then none
        else some [(applyOptions opts).WorkLang])) ∧
    (∀ args : SearchOptions, ∃ q,
      (Search pkg ctx query [fun _ => args]).query = some q ∧
      (q.Has "lang" = true ↔ args.Lang ≠ LangNull) ∧
      (q.Has "work_lang" = true ↔ args.WorkLang ≠ WorkLangNull)) ∧
    (∃ q, (Search pkg ctx query [SearchOptionLang LangZH]).query = some q ∧
      q.lookup "lang" = some ["zh"] ∧ q.Has "work_lang" = false) ∧
    (∃ q, (Search pkg ctx query [SearchOptionWorkLang WorkLangZHCN]).query = some q ∧
      q.lookup "work_lang" = some ["zh-cn"] ∧ q.Has "lang" = false) := by
  have kl : ∀ opts : List SearchOption,
      (searchValues (searchArgs opts)).lookup "lang"
        = if (applyOptions opts).Lang = LangNull then none
          else some [(applyOptions opts).Lang] := by
    intro opts
    rw [searchValues_lang, searchArgs_Lang]
    rfl
  have kw : ∀ opts : List SearchOption,
      (searchValues (searchArgs opts)).lookup "work_lang"
        = if (applyOptions opts).WorkLang = WorkLangNull then none
          else some [(applyOptions opts).WorkLang] := by
    intro opts
    rw [searchValues_work_lang, searchArgs_WorkLang]
    rfl
  have hl : ∀ opts : List SearchOption,
      ((searchValues (searchArgs opts)).Has "lang" = true
        ↔ (applyOptions opts).Lang ≠ LangNull) := by
    intro opts
    unfold url.Values.Has
    rw [kl opts]
    split_ifs with h <;> simp [h]
  have hw : ∀ opts : List SearchOption,
      ((searchValues (searchArgs opts)).Has "work_lang" = true
        ↔ (applyOptions opts).WorkLang ≠ WorkLangNull) := by
    intro opts
    unfold url.Values.Has
    rw [kw opts]
    split_ifs with h <;> simp [h]
  refine ⟨?_, ?_, ?_, ?_⟩
  · intro opts
    exact ⟨_, Search_query pkg ctx query opts, hl opts, kl opts, hw opts, kw opts⟩
  · intro args
    exact ⟨_, Search_query pkg ctx query _, hl [fun _ => args], hw [fun _ => args]⟩
  · refine ⟨_, Search_query pkg ctx query _, ?_, ?_⟩
    · rw [kl]
      rfl
    · unfold url.Values.Has
      rw [kw]
      rfl
  · refine ⟨_, Search_query pkg ctx query _, ?_, ?_⟩
    · rw [kw]
      rfl
    · unfold url.Values.Has
      rw [kl]
      rfl

/-- C4: called with no option mutators, `Search` hands the transport an empty
set of query parameters: no `p`, `order`, `lang`, `work_lang`, nor any other
key. -/
theorem Search_default_parameters {κ ε β : Type} (pkg : client.Package κ ε β) (ctx : κ)
    (query : String) :
    (Search pkg ctx query []).query = some url.Values.empty ∧
    (∀ key : String, url.Values.empty.Has key = false) := by
  refine ⟨?_, fun key => rfl⟩
  rw [Search_query]
  rfl

/-- C5, as stated, fails: for the query `a b` the path `Search` hands over is
`/ajax/search/novels/a b`, the query as it is, which is neither the path
escaping nor the query escaping of it behind the fixed text. -/
theorem Search_path_not_escaped :
    (Search offline () "a b" []).path = some "/ajax/search/novels/a b" ∧
    (Search offline () "a b" []).path
      ≠ some ("/ajax/search/novels/" ++ url.PathEscape "a b") ∧
    (Search offline () "a b" []).path
      ≠ some ("/ajax/search/novels/" ++ url.QueryEscape "a b") := by
  refine ⟨by decide, by decide, by decide⟩

/-- C5, amended: for every query, the resource path `Search` hands to
`EndpointURL` is the fixed text `/ajax/search/novels/` followed by the query
as given, with no escaping applied by `Search`. -/
theorem Search_path_verbatim {κ ε β : Type} (pkg : client.Package κ ε β) (ctx : κ)
    (query : String) (opts : List SearchOption) :
    (Search pkg ctx query opts).path = some ("/ajax/search/novels/" ++ query) := by
  simp [SearchReturn.path, Search_endpoint]

end novel

/-! ## Theorems: the result mapper -/

namespace novel

theorem tagsLoop_enumFrom (l : List gjson.Result) (done : List String) :
    tagsLoop (l.enumFrom done.length) (done ++ List.replicate l.length "")
      = done ++ l.map gjson.Result.String := by
  induction l generalizing done with
  | nil => simp [tagsLoop]
  | cons v rest ih =>
    simp only [List.enumFrom_cons, tagsLoop, List.length_cons, List.replicate_succ,
      List.map_cons]
    rw [List.set_append_right _ _ (le_refl _)]
    have h := ih (done ++ [gjson.Result.String v])
    simp only [List.length_append, List.length_singleton, List.append_assoc,
      List.singleton_append] at h
    simpa using h

theorem tagsLoop_enum (l : List gjson.Result) :
    tagsLoop l.enum (List.replicate l.length "") = l.map gjson.Result.String := by
  have h := tagsLoop_enumFrom l []
  simpa [List.enum] using h

theorem novelsIterator_eq (ret : List Novel) (key value : gjson.Result) :
    novelsIterator ret key value = (ret ++ [specProjection value], true) := by
  unfold novelsIterator specProjection
  simp only [tagsLoop_enum]

theorem forEachLoop_novelsIterator (pairs : List (gjson.Result × gjson.Result))
    (ret : List Novel) :
    gjson.forEachLoop novelsIterator pairs ret
      = ret ++ pairs.map (fun kv => specProjection kv.2) := by
  induction pairs generalizing ret with
  | nil => simp [gjson.forEachLoop]
  | cons kv rest ih =>
    simp only [gjson.forEachLoop, novelsIterator_eq, if_true, ih, List.map_cons,
      List.append_assoc, List.singleton_append]

theorem ForEach_novelsIterator_array (r : SearchResult) (raw : String)
    (elems : List gjson.Value) (ret : List Novel)
    (hdata : gjson.Result.Get r.JSON "novel.data" = some (.array raw elems)) :
    r.ForEach novelsIterator ret = ret ++ elems.map (fun v => specProjection (some v)) := by
  unfold SearchResult.ForEach
  rw [hdata]
  unfold gjson.Result.ForEach
  simp only [forEachLoop_novelsIterator, List.map_map]
  congr 1
  have : ∀ (n : Nat) (l : List gjson.Value),
      List.map ((fun kv : gjson.Result × gjson.Result => specProjection kv.2) ∘
        fun iv : Nat × gjson.Value => (gjson.indexKey iv.1, some iv.2)) (l.enumFrom n)
        = l.map (fun v => specProjection (some v)) := by
    intro n l
    induction l generalizing n with
    | nil => rfl
    | cons v rest ih => simp [List.enumFrom_cons, ih]
  exact this 0 elems

theorem Novels_of_array (maxCap : Nat) (r : SearchResult) (raw : String)
    (elems : List gjson.Value)
    (hdata : gjson.Result.Get r.JSON "novel.data" = some (.array raw elems))
    (hlow : 0 ≤ r.novelsCap) (hhigh : r.novelsCap ≤ maxCap) :
    r.Novels maxCap = some (elems.map (fun v => specProjection (some v))) := by
  unfold SearchResult.Novels makeSlice
  have h : ¬ (r.novelsCap < 0 ∨ (maxCap : Int) < r.novelsCap) := by omega
  simp only [h, if_false]
  rw [ForEach_novelsIterator_array r raw elems [] hdata]
  simp

theorem Novels_negative_cap (maxCap : Nat) (r : SearchResult) (h : r.novelsCap < 0) :
    r.Novels maxCap = none := by
  unfold SearchResult.Novels makeSlice
  simp [h]

theorem specProjection_FieldsRead (value : gjson.Result) :
    FieldsRead value (specProjection value) :=
  ⟨rfl, rfl, rfl, rfl, rfl, rfl, rfl, rfl, rfl⟩

theorem String_of_missing (t : gjson.Result) (h : t = none ∨ t = some .null) :
    gjson.Result.String t = "" := by
  rcases h with h | h <;> rw [h] <;> rfl

theorem Int_of_missing (t : gjson.Result) (h : t = none ∨ t = some .null) :
    gjson.Result.Int t = 0 := by
  rcases h with h | h <;> rw [h] <;> rfl

theorem specProjection_ZeroWhere (value : gjson.Result) :
    ZeroWhere (fun t => t = none ∨ t = some .null) value (specProjection value) :=
  ⟨String_of_missing _, String_of_missing _, String_of_missing _, String_of_missing _,
    String_of_missing _, String_of_missing _, String_of_missing _, Int_of_missing _,
    Int_of_missing _⟩

theorem ZeroWhere_mono (p q : gjson.Result → Prop) (hpq : ∀ t, p t → q t)
    (value : gjson.Result) (n : Novel) (h : ZeroWhere q value n) : ZeroWhere p value n :=
  ⟨fun a => h.1 (hpq _ a), fun a => h.2.1 (hpq _ a), fun a => h.2.2.1 (hpq _ a),
    fun a => h.2.2.2.1 (hpq _ a), fun a => h.2.2.2.2.1 (hpq _ a),
    fun a => h.2.2.2.2.2.1 (hpq _ a), fun a => h.2.2.2.2.2.2.1 (hpq _ a),
    fun a => h.2.2.2.2.2.2.2.1 (hpq _ a), fun a => h.2.2.2.2.2.2.2.2 (hpq _ a)⟩

theorem forall₂_map_right {α β : Type} (R : α → β → Prop) (f : α → β)
    (h : ∀ a, R a (f a)) (l : List α) : List.Forall₂ R l (l.map f) := by
  induction l with
  | nil => exact List.Forall₂.nil
  | cons a rest ih => exact List.Forall₂.cons (h a) ih

/-- C6: on the document `{"#":-1,"novel":{"data":[E]}}`, whose `novel.data` is
an array of one element, `Novels()` asks `make` for the capacity -1 it reads at
`#` and panics: no sequence is returned, whatever the runtime can allocate. -/
theorem Novels_array_negative_hint (maxCap : Nat) :
    gjson.Result.Get (hintedEnvelope "[\x7b\"id\":\"1\"\x7d]"
        [.object "\x7b\"id\":\"1\"\x7d" [("id", .string "1")]]) "novel.data"
      = some (.array "[\x7b\"id\":\"1\"\x7d]"
        [.object "\x7b\"id\":\"1\"\x7d" [("id", .string "1")]]) ∧
    SearchResult.novelsCap ⟨hintedEnvelope "[\x7b\"id\":\"1\"\x7d]"
        [.object "\x7b\"id\":\"1\"\x7d" [("id", .string "1")]]⟩ = -1 ∧
    SearchResult.Novels maxCap ⟨hintedEnvelope "[\x7b\"id\":\"1\"\x7d]"
        [.object "\x7b\"id\":\"1\"\x7d" [("id", .string "1")]]⟩ = none :=
  ⟨rfl, by decide, Novels_negative_cap maxCap _ (by decide)⟩

/-- C7: the Novel the iterator of `Novels()` appends for an entry has ID,
Title, Description, Author.ID, Author.Name, Series.ID, Series.Title equal to
the string values at `id`, `title`, `Description`, `userId`, `userName`,
`seriesId`, `seriesTitle`, and TextCount, BookmarkCount equal to the integer
values at `textCount`, `bookmarkCount`, a field whose key is absent being the
empty string or zero; when `novel.data` is an array and the capacity read at
`#` is one `make` accepts, the Novels returned are these, entry by entry; and
on the specification's example `Novels()` returns the one Novel it names. -/
theorem Novels_field_mapping :
    (∀ (ret : List Novel) (key value : gjson.Result), ∃ n : Novel,
      novelsIterator ret key value = (ret ++ [n], true) ∧ FieldsRead value n ∧
      ZeroWhere (fun t => t = none) value n) ∧
    (∀ (maxCap : Nat) (r : SearchResult) (raw : String) (elems : List gjson.Value),
      gjson.Result.Get r.JSON "novel.data" = some (.array raw elems) →
      0 ≤ r.novelsCap → r.novelsCap ≤ maxCap →
      ∃ ns, r.Novels maxCap = some ns ∧
        List.Forall₂ (fun v n => FieldsRead (some v) n ∧
          ZeroWhere (fun t => t = none) (some v) n) elems ns) ∧
    (∀ maxCap : Nat, SearchResult.Novels maxCap ⟨specDocument⟩
      = some [{ ID := "1", Title := "T", Description := "", Author := ⟨"u1", "A"⟩,
                TextCount := 0, BookmarkCount := 0, Series := ⟨"", ""⟩,
                Tags := ["x", "y"] }]) := by
  have hz : ∀ value : gjson.Result,
      ZeroWhere (fun t => t = none) value (specProjection value) := fun value =>
    ZeroWhere_mono _ _ (fun _ h => Or.inl h) value _ (specProjection_ZeroWhere value)
  refine ⟨?_, ?_, ?_⟩
  · intro ret key value
    exact ⟨specProjection value, novelsIterator_eq ret key value,
      specProjection_FieldsRead value, hz value⟩
  · intro maxCap r raw elems hdata hlow hhigh
    refine ⟨_, Novels_of_array maxCap r raw elems hdata hlow hhigh, ?_⟩
    exact forall₂_map_right _ _ (fun v => ⟨specProjection_FieldsRead (some v), hz (some v)⟩)
      elems
  · intro maxCap
    rw [Novels_of_array maxCap ⟨specDocument⟩ _ [specEntry] rfl (by decide)
      (by show (0 : Int) ≤ maxCap; omega)]
    decide

/-- C7, on the specification's example: its entry has no `Description`,
`textCount` or `seriesId`, the capacity read at `#` is 0, and the Novel
returned for it has those fields empty or zero. -/
theorem Novels_field_mapping_witness :
    gjson.Result.Get specDocument "novel.data"
      = some (.array
        "[\x7b\"id\":\"1\",\"title\":\"T\",\"userId\":\"u1\",\"userName\":\"A\",\"tags\":[\"x\",\"y\"]\x7d]"
        [specEntry]) ∧
    (0 : Int) ≤ SearchResult.novelsCap ⟨specDocument⟩ ∧
    SearchResult.novelsCap ⟨specDocument⟩ ≤ (0 : Nat) ∧
    ∃ ns, SearchResult.Novels 0 ⟨specDocument⟩ = some ns ∧
      List.Forall₂ (fun v n => FieldsRead (some v) n ∧
        ZeroWhere (fun t => t = none) (some v) n) [specEntry] ns :=
  ⟨rfl, by decide, by decide,
    Novels_field_mapping.2.1 0 ⟨specDocument⟩ _ [specEntry] rfl (by decide) (by decide)⟩

/-- C8, as stated, fails: for the entry
`{"id":7,"title":true,"textCount":"42","bookmarkCount":true}`, every field of
another JSON type than the one mapped to, `Novels()` returns ID `7`, Title
`true`, TextCount 42 and BookmarkCount 1, none of them the zero value. -/
theorem Novels_mistyped_converted :
    SearchResult.Novels 0 ⟨mistypedDocument⟩
      = some [{ ID := "7", Title := "true", Description := "", Author := ⟨"", ""⟩,
                TextCount := 42, BookmarkCount := 1, Series := ⟨"", ""⟩, Tags := [] }] := by
  rw [Novels_of_array 0 ⟨mistypedDocument⟩ _ [mistypedEntry] rfl (by decide) (by decide)]
  decide

theorem ForEach_array_forall₂ (R : gjson.Value → Novel → Prop)
    (hR : ∀ v, R v (specProjection (some v))) (r : SearchResult) (raw : String)
    (elems : List gjson.Value) (ret : List Novel)
    (hdata : gjson.Result.Get r.JSON "novel.data" = some (.array raw elems)) :
    ∃ ns, r.ForEach novelsIterator ret = ret ++ ns ∧ List.Forall₂ R elems ns :=
  ⟨_, ForEach_novelsIterator_array r raw elems ret hdata, forall₂_map_right R _ hR elems⟩

theorem Novels_array_forall₂ (R : gjson.Value → Novel → Prop)
    (hR : ∀ v, R v (specProjection (some v))) (maxCap : Nat) (r : SearchResult)
    (raw : String) (elems : List gjson.Value)
    (hdata : gjson.Result.Get r.JSON "novel.data" = some (.array raw elems))
    (hlow : 0 ≤ r.novelsCap) (hhigh : r.novelsCap ≤ maxCap) :
    ∃ ns, r.Novels maxCap = some ns ∧ List.Forall₂ R elems ns :=
  ⟨_, Novels_of_array maxCap r raw elems hdata hlow hhigh, forall₂_map_right R _ hR elems⟩

theorem parseIntLoop_nondigit (cs : List Char) (h : ∃ c ∈ cs, gjson.isDigit c = false)
    (n : Int) : gjson.parseIntLoop cs n = none := by
  induction cs generalizing n with
  | nil =>
    obtain ⟨c, hc, _⟩ := h
    exact absurd hc (List.not_mem_nil c)
  | cons a rest ih =>
    obtain ⟨c, hc, hd⟩ := h
    unfold gjson.parseIntLoop
    by_cases ha : gjson.isDigit a = true
    · rw [if_pos ha]
      rcases List.mem_cons.mp hc with e | e
      · rw [e] at hd
        rw [hd] at ha
        exact absurd ha (by decide)
      · exact ih ⟨c, e, hd⟩ _
    · rw [if_neg ha]

theorem parseInt_nondigit (str : String)
    (h : ∃ c ∈ str.data.drop 1, gjson.isDigit c = false) :
    gjson.parseInt str = (0, false) := by
  obtain ⟨c, hc, hd⟩ := h
  have hall : c ∈ str.data := List.mem_of_mem_drop hc
  unfold gjson.parseInt
  simp only []
  split_ifs with hs
  · have hl := parseIntLoop_nondigit (List.drop 1 str.data) ⟨c, hc, hd⟩ 0
    cases hdig : List.drop 1 str.data with
    | nil => rfl
    | cons a rest =>
      rw [hdig] at hl
      simp only [hl]
  · have hl := parseIntLoop_nondigit str.data ⟨c, hall, hd⟩ 0
    cases hdig : str.data with
    | nil => rfl
    | cons a rest =>
      rw [hdig] at hl
      simp only [hl]

theorem specProjection_TagsRead (value : gjson.Result) :
    TagsRead value (specProjection value) := by
  refine ⟨?_, ?_⟩
  · intro raw elems h
    have ht : (specProjection value).Tags
        = elems.map (fun v => gjson.Result.String (some v)) := by
      show List.map gjson.Result.String
        (gjson.Result.Array (gjson.Result.Get value "tags")) = _
      rw [h]
      show List.map gjson.Result.String (elems.map some) = _
      rw [List.map_map]
      rfl
    exact ⟨ht, by rw [ht, List.length_map]⟩
  · intro h
    show List.map gjson.Result.String
      (gjson.Result.Array (gjson.Result.Get value "tags")) = _
    rw [h]
    rfl

set_option maxRecDepth 16384

/-- C8, amended: for every entry of `novel.data`, the Novel appended for it
has each mapped field equal to what gjson's accessor returns at the field's
key, which is the zero value when the key is missing or holds `null`; over an
array `novel.data` the loop appends these Novels, one for every entry in
order, and `Novels()` returns them when the capacity read at `#` is one `make`
accepts.  A value of another type is converted, not zeroed.  As a string:
`true` and `false` give their names; a number gives the text of its literal
when that is an integer literal and otherwise the shortest decimal text of its
value (`1.50` gives `1.5`); an array or object gives its text.  As an integer:
`true` gives 1; a number gives gjson's `int64` conversion of it; a string
gives what gjson's `parseInt` returns for it, which adds up the digits in
wrapping `int64` arithmetic (`42` gives 42, `-7` gives -7,
`9223372036854775808` gives -9223372036854775808) and is 0 when a character
after the first is not a digit (`4x`) and for the empty string; `false`,
arrays and objects give 0. -/
theorem Novels_missing_fields_zero :
    (∀ (ret : List Novel) (key value : gjson.Result), ∃ n : Novel,
      novelsIterator ret key value = (ret ++ [n], true) ∧ FieldsRead value n ∧
      ZeroWhere (fun t => t = none ∨ t = some .null) value n) ∧
    (∀ (r : SearchResult) (raw : String) (elems : List gjson.Value) (ret : List Novel),
      gjson.Result.Get r.JSON "novel.data" = some (.array raw elems) →
      ∃ ns, r.ForEach novelsIterator ret = ret ++ ns ∧ ns.length = elems.length ∧
        List.Forall₂ (fun v n => FieldsRead (some v) n ∧
          ZeroWhere (fun t => t = none ∨ t = some .null) (some v) n) elems ns) ∧
    (∀ (maxCap : Nat) (r : SearchResult) (raw : String) (elems : List gjson.Value),
      gjson.Result.Get r.JSON "novel.data" = some (.array raw elems) →
      0 ≤ r.novelsCap → r.novelsCap ≤ maxCap →
      ∃ ns, r.Novels maxCap = some ns ∧
        List.Forall₂ (fun v n => FieldsRead (some v) n ∧
          ZeroWhere (fun t => t = none ∨ t = some .null) (some v) n) elems ns) ∧
    (∀ b : Bool, gjson.Result.String (some (.bool b)) = (if b then "true" else "false")) ∧
    (∀ raw int fmt, gjson.Result.String (some (.number raw int fmt))
      = (if gjson.isIntegerText raw.data = true then raw else fmt)) ∧
    (∀ raw int fmt, gjson.isIntegerText raw.data = true →
      gjson.Result.String (some (.number raw int fmt)) = raw) ∧
    (∀ raw int fmt, gjson.isIntegerText raw.data = false →
      gjson.Result.String (some (.number raw int fmt)) = fmt) ∧
    gjson.Result.String (some (.number "7" 7 "7")) = "7" ∧
    gjson.Result.String (some (.number "1.50" 1 "1.5")) = "1.5" ∧
    (∀ raw elems, gjson.Result.String (some (.array raw elems)) = raw) ∧
    (∀ raw members, gjson.Result.String (some (.object raw members)) = raw) ∧
    gjson.Result.Int (some (.bool true)) = 1 ∧
    gjson.Result.Int (some (.bool false)) = 0 ∧
    (∀ raw int fmt, gjson.Result.Int (some (.number raw int fmt)) = int) ∧
    (∀ str, gjson.Result.Int (some (.string str)) = (gjson.parseInt str).1) ∧
    gjson.parseInt "42" = (42, true) ∧
    gjson.parseInt "-7" = (-7, true) ∧
    gjson.parseInt "9223372036854775808" = (-9223372036854775808, true) ∧
    gjson.parseInt "4x" = (0, false) ∧
    gjson.parseInt "" = (0, false) ∧
    (∀ str : String, (∃ c ∈ str.data.drop 1, gjson.isDigit c = false) →
      gjson.Result.Int (some (.string str)) = 0) ∧
    (∀ raw elems, gjson.Result.Int (some (.array raw elems)) = 0) ∧
    (∀ raw members, gjson.Result.Int (some (.object raw members)) = 0) := by
  have hR : ∀ v : gjson.Value, FieldsRead (some v) (specProjection (some v)) ∧
      ZeroWhere (fun t => t = none ∨ t = some .null) (some v) (specProjection (some v)) :=
    fun v => ⟨specProjection_FieldsRead _, specProjection_ZeroWhere _⟩
  refine ⟨?_, ?_, ?_, ?_, fun _ _ _ => rfl, ?_, ?_, by decide, by decide,
    fun _ _ => rfl, fun _ _ => rfl, rfl, rfl, fun _ _ _ => rfl, fun _ => rfl,
    by decide, by decide, by decide, by decide, by decide, ?_,
    fun _ _ => rfl, fun _ _ => rfl⟩
  · intro ret key value
    exact ⟨specProjection value, novelsIterator_eq ret key value,
      specProjection_FieldsRead value, specProjection_ZeroWhere value⟩
  · intro r raw elems ret hdata
    obtain ⟨ns, hns, hall⟩ := ForEach_array_forall₂ (fun v n => FieldsRead (some v) n ∧
      ZeroWhere (fun t => t = none ∨ t = some .null) (some v) n)
      hR r raw elems ret hdata
    exact ⟨ns, hns, hall.length_eq.symm, hall⟩
  · intro maxCap r raw elems hdata hlow hhigh
    exact Novels_array_forall₂ (fun v n => FieldsRead (some v) n ∧
      ZeroWhere (fun t => t = none ∨ t = some .null) (some v) n)
      hR maxCap r raw elems hdata hlow hhigh
  · intro b
    cases b <;> rfl
  · intro raw int fmt h
    show (if gjson.isIntegerText raw.data = true then raw else fmt) = raw
    rw [if_pos h]
  · intro raw int fmt h
    show (if gjson.isIntegerText raw.data = true then raw else fmt) = fmt
    rw [h]
    rfl
  · intro str h
    show (gjson.parseInt str).1 = 0
    rw [parseInt_nondigit str h]

/-- C8 amended, on the document whose `novel.data` holds the mistyped entry
and then `{"id":1.50,"textCount":"9223372036854775808"}`: `Novels()` returns
one Novel for each, with the fields read through the accessors; `1.50` is not
an integer literal and reads as `1.5`, and a string with a letter after its
first character reads as the integer 0. -/
theorem Novels_missing_fields_zero_witness :
    (∃ raw, gjson.Result.Get convertedDocument "novel.data"
      = some (.array raw [mistypedEntry, fractionEntry])) ∧
    (0 : Int) ≤ SearchResult.novelsCap ⟨convertedDocument⟩ ∧
    SearchResult.novelsCap ⟨convertedDocument⟩ ≤ (0 : Nat) ∧
    (∃ ns, SearchResult.Novels 0 ⟨convertedDocument⟩ = some ns ∧
      List.Forall₂ (fun v n => FieldsRead (some v) n ∧
        ZeroWhere (fun t => t = none ∨ t = some .null) (some v) n)
        [mistypedEntry, fractionEntry] ns) ∧
    (∃ ns, SearchResult.ForEach ⟨convertedDocument⟩ novelsIterator [] = [] ++ ns ∧
      ns.length = [mistypedEntry, fractionEntry].length ∧
      List.Forall₂ (fun v n => FieldsRead (some v) n ∧
        ZeroWhere (fun t => t = none ∨ t = some .null) (some v) n)
        [mistypedEntry, fractionEntry] ns) ∧
    gjson.isIntegerText "1.50".data = false ∧
    gjson.Result.String (some (.number "1.50" 1 "1.5")) = "1.5" ∧
    (∃ c ∈ "4x".data.drop 1, gjson.isDigit c = false) ∧
    gjson.Result.Int (some (.string "4x")) = 0 ∧
    SearchResult.Novels 0 ⟨convertedDocument⟩
      = some [{ ID := "7", Title := "true", Description := "", Author := ⟨"", ""⟩,
                TextCount := 42, BookmarkCount := 1, Series := ⟨"", ""⟩, Tags := [] },
              { ID := "1.5", Title := "", Description := "", Author := ⟨"", ""⟩,
                TextCount := -9223372036854775808, BookmarkCount := 0,
                Series := ⟨"", ""⟩, Tags := [] }] := by
  have hx : ∃ c ∈ "4x".data.drop 1, gjson.isDigit c = false :=
    ⟨Char.ofNat 120, by decide, by decide⟩
  refine ⟨⟨_, rfl⟩, by decide, by decide,
    Novels_missing_fields_zero.2.2.1 0 ⟨convertedDocument⟩ _
      [mistypedEntry, fractionEntry] rfl (by decide) (by decide),
    Novels_missing_fields_zero.2.1 ⟨convertedDocument⟩ _
      [mistypedEntry, fractionEntry] [] rfl,
    by decide,
    Novels_missing_fields_zero.2.2.2.2.2.2.1 "1.50" 1 "1.5" (by decide),
    hx, ?_, ?_⟩
  · exact Novels_missing_fields_zero.2.2.2.2.2.2.2.2.2.2.2.2.2.2.2.2.2.2.2.2.1 "4x" hx
  · rw [Novels_of_array 0 ⟨convertedDocument⟩ _ [mistypedEntry, fractionEntry] rfl
      (by decide) (by decide)]
    decide

/-- C9: for every entry of `novel.data`, the Tags of the Novel produced for it
are the string values of the elements of the entry's `tags` array, as many and
in the same order, repeated ones kept, and the empty sequence when `tags` is
absent: so it is of the Novel the iterator appends for an entry, of the Novels
the loop appends over an array `novel.data`, one per entry in order, and of
the Novels `Novels()` returns when the capacity read at `#` is one `make`
accepts; on entries with tags `["x","y","x"]` and with no tags `Novels()`
returns Tags `x`, `y`, `x` and no Tags. -/
theorem Novels_tags :
    (∀ (ret : List Novel) (key value : gjson.Result), ∃ n : Novel,
      novelsIterator ret key value = (ret ++ [n], true) ∧
      (∀ raw elems, gjson.Result.Get value "tags" = some (.array raw elems) →
        n.Tags = elems.map (fun v => gjson.Result.String (some v)) ∧
        n.Tags.length = elems.length) ∧
      (gjson.Result.Get value "tags" = none → n.Tags = [])) ∧
    (∃ n : Novel, novelsIterator [] none (some repeatedTagsEntry) = ([n], true) ∧
      n.Tags = ["x", "y", "x"]) ∧
    (∀ (r : SearchResult) (raw : String) (elems : List gjson.Value) (ret : List Novel),
      gjson.Result.Get r.JSON "novel.data" = some (.array raw elems) →
      ∃ ns, r.ForEach novelsIterator ret = ret ++ ns ∧
        List.Forall₂ (fun v n => TagsRead (some v) n) elems ns) ∧
    (∀ (maxCap : Nat) (r : SearchResult) (raw : String) (elems : List gjson.Value),
      gjson.Result.Get r.JSON "novel.data" = some (.array raw elems) →
      0 ≤ r.novelsCap → r.novelsCap ≤ maxCap →
      ∃ ns, r.Novels maxCap = some ns ∧
        List.Forall₂ (fun v n => TagsRead (some v) n) elems ns) ∧
    (∀ maxCap : Nat, SearchResult.Novels maxCap ⟨repeatedTagsDocument⟩
      = some [{ ID := "9", Title := "", Description := "", Author := ⟨"", ""⟩,
                TextCount := 0, BookmarkCount := 0, Series := ⟨"", ""⟩,
                Tags := ["x", "y", "x"] },
              { ID := "a", Title := "", Description := "", Author := ⟨"", ""⟩,
                TextCount := 0, BookmarkCount := 0, Series := ⟨"", ""⟩,
                Tags := [] }]) := by
  refine ⟨?_, ?_, ?_, ?_, ?_⟩
  · intro ret key value
    exact ⟨specProjection value, novelsIterator_eq ret key value,
      (specProjection_TagsRead value).1, (specProjection_TagsRead value).2⟩
  · exact ⟨specProjection (some repeatedTagsEntry), novelsIterator_eq _ _ _, by decide⟩
  · intro r raw elems ret hdata
    exact ForEach_array_forall₂ (fun v n => TagsRead (some v) n)
      (fun v => specProjection_TagsRead (some v)) r raw elems ret hdata
  · intro maxCap r raw elems hdata hlow hhigh
    exact Novels_array_forall₂ (fun v n => TagsRead (some v) n)
      (fun v => specProjection_TagsRead (some v)) maxCap r raw elems hdata hlow hhigh
  · intro maxCap
    rw [Novels_of_array maxCap ⟨repeatedTagsDocument⟩ _ [repeatedTagsEntry, idEntry "a"]
      rfl (by decide) (by show (0 : Int) ≤ maxCap; omega)]
    decide

/-- C9, on the specification's entry, on an entry without tags and on the
document with a repeated tag: the tags `["x","y"]` give Tags `x`, `y`, the
empty object gives no Tags, and `Novels()` returns for the two entries of the
document Novels whose Tags are read from their `tags`. -/
theorem Novels_tags_witness :
    (gjson.Result.Get (some specEntry) "tags"
      = some (.array "[\"x\",\"y\"]" [.string "x", .string "y"]) ∧
    ∃ n : Novel, novelsIterator [] none (some specEntry) = ([] ++ [n], true) ∧
      n.Tags = ["x", "y"]) ∧
    (gjson.Result.Get (some (.object "\x7b\x7d" [])) "tags" = none ∧
    ∃ n : Novel, novelsIterator [] none (some (.object "\x7b\x7d" [])) = ([] ++ [n], true) ∧
      n.Tags = []) ∧
    ((∃ raw, gjson.Result.Get repeatedTagsDocument "novel.data"
      = some (.array raw [repeatedTagsEntry, idEntry "a"])) ∧
    (0 : Int) ≤ SearchResult.novelsCap ⟨repeatedTagsDocument⟩ ∧
    SearchResult.novelsCap ⟨repeatedTagsDocument⟩ ≤ (0 : Nat) ∧
    ∃ ns, SearchResult.Novels 0 ⟨repeatedTagsDocument⟩ = some ns ∧
      List.Forall₂ (fun v n => TagsRead (some v) n) [repeatedTagsEntry, idEntry "a"] ns) := by
  refine ⟨⟨rfl, ?_⟩, ⟨rfl, ?_⟩, ⟨⟨_, rfl⟩, by decide, by decide, ?_⟩⟩
  · obtain ⟨n, hn, harr, _⟩ := Novels_tags.1 [] none (some specEntry)
    exact ⟨n, hn, (harr _ _ rfl).1⟩
  · obtain ⟨n, hn, _, habs⟩ := Novels_tags.1 [] none (some (.object "\x7b\x7d" []))
    exact ⟨n, hn, habs rfl⟩
  · exact Novels_tags.2.2.2.1 0 ⟨repeatedTagsDocument⟩ _ [repeatedTagsEntry, idEntry "a"]
      rfl (by decide) (by decide)

/-- C10: on the document `{"#":-1,"novel":{"data":[]}}`, whose `novel.data` is
the empty array, `Novels()` asks `make` for the capacity -1 it reads at `#`
and panics: no sequence is returned, whatever the runtime can allocate. -/
theorem Novels_empty_negative_hint (maxCap : Nat) :
    gjson.Result.Get (hintedEnvelope "[]" []) "novel.data" = some (.array "[]" []) ∧
    SearchResult.novelsCap ⟨hintedEnvelope "[]" []⟩ = -1 ∧
    SearchResult.Novels maxCap ⟨hintedEnvelope "[]" []⟩ = none :=
  ⟨rfl, by decide, Novels_negative_cap maxCap _ (by decide)⟩

end novel

/-! ## Theorems: early stop of the iteration -/

namespace gjson

theorem ForEach_eq_loop {σ : Type} (t : Result)
    (iterator : σ → Result → Result → σ × Bool) (s : σ) :
    Result.ForEach t iterator s = forEachLoop iterator (Result.pairs t) s := by
  have single : ∀ v : Value,
      (iterator s none (some v)).1 = forEachLoop iterator [(none, some v)] s := by
    intro v
    simp only [forEachLoop]
    split_ifs <;> rfl
  cases t with
  | none => rfl
  | some v =>
    cases v with
    | null => exact single _
    | bool b => exact single _
    | number raw int fmt => exact single _
    | string str => exact single _
    | array raw elems => rfl
    | object raw members => rfl

theorem forEachLoop_recording_stop {σ : Type}
    (iterator : σ → Result → Result → σ × Bool) (kv : Result × Result)
    (rest : List (Result × Result)) (s : σ) (log : List (Result × Result))
    (h : (iterator s kv.1 kv.2).2 = false) :
    forEachLoop (recording iterator) (kv :: rest) (s, log)
      = ((iterator s kv.1 kv.2).1, log ++ [kv]) := by
  simp only [forEachLoop, recording, h, Bool.false_eq_true, if_false]

end gjson

namespace novel

/-- C11: whatever follows the first entry of `novel.data`, `ForEach` with an
iterator whose first call returns false calls it on that first entry, under
index 0, and on nothing else; the same holds of whatever `novel.data` gives
to visit (the members of an object, a lone value): the first pair is visited
and no later one; and when there is nothing to visit the iterator is not
called. -/
theorem ForEach_stops_after_first {σ : Type} (r : SearchResult)
    (iterator : σ → gjson.Result → gjson.Result → σ × Bool) (s : σ) :
    (∀ (raw : String) (first : gjson.Value) (rest : List gjson.Value),
      gjson.Result.Get r.JSON "novel.data" = some (.array raw (first :: rest)) →
      (iterator s (gjson.indexKey 0) (some first)).2 = false →
      r.ForEach (gjson.recording iterator) (s, [])
        = ((iterator s (gjson.indexKey 0) (some first)).1,
            [(gjson.indexKey 0, some first)])) ∧
    (∀ (kv : gjson.Result × gjson.Result) (rest : List (gjson.Result × gjson.Result)),
      gjson.Result.pairs (gjson.Result.Get r.JSON "novel.data") = kv :: rest →
      (iterator s kv.1 kv.2).2 = false →
      r.ForEach (gjson.recording iterator) (s, []) = ((iterator s kv.1 kv.2).1, [kv])) ∧
    (gjson.Result.pairs (gjson.Result.Get r.JSON "novel.data") = [] →
      r.ForEach (gjson.recording iterator) (s, []) = (s, [])) := by
  refine ⟨?_, ?_, ?_⟩
  · intro raw first rest hdata hstop
    unfold SearchResult.ForEach
    rw [gjson.ForEach_eq_loop, hdata]
    show gjson.forEachLoop (gjson.recording iterator)
      ((gjson.indexKey 0, some first) :: _) (s, []) = _
    rw [gjson.forEachLoop_recording_stop iterator _ _ s [] hstop]
    rfl
  · intro kv rest hp hstop
    unfold SearchResult.ForEach
    rw [gjson.ForEach_eq_loop, hp, gjson.forEachLoop_recording_stop iterator kv rest s []
      hstop]
    rfl
  · intro hp
    unfold SearchResult.ForEach
    rw [gjson.ForEach_eq_loop, hp]
    rfl

/-- C11, on a document of three entries with an iterator that counts its
calls and always returns false: it is called once, on the entry `a`. -/
theorem ForEach_stops_after_first_witness :
    (∃ raw, gjson.Result.Get threeDocument "novel.data"
      = some (.array raw (idEntry "a" :: [idEntry "b", idEntry "c"]))) ∧
    ((fun (n : Nat) (_ _ : gjson.Result) => (n + 1, false)) 0 (gjson.indexKey 0)
      (some (idEntry "a"))).2 = false ∧
    SearchResult.ForEach ⟨threeDocument⟩
        (gjson.recording (fun (n : Nat) (_ _ : gjson.Result) => (n + 1, false))) (0, [])
      = (1, [(gjson.indexKey 0, some (idEntry "a"))]) :=
  ⟨⟨_, rfl⟩, rfl,
    (ForEach_stops_after_first ⟨threeDocument⟩
      (fun (n : Nat) (_ _ : gjson.Result) => (n + 1, false)) 0).1 _ (idEntry "a")
      [idEntry "b", idEntry "c"] rfl rfl⟩

end novel

/-! ## Theorems: transport, parser and the response body -/

namespace novel

theorem Search_of_transport_error {κ ε β : Type} (pkg : client.Package κ ε β) (ctx : κ)
    (query : String) (opts : List SearchOption) (e : ε)
    (h : (pkg.For ctx).GetWithContext ctx (searchTarget pkg ctx query opts) = .error e) :
    Search pkg ctx query opts
      = { result := ⟨none⟩, err := some e,
          calls := [.EndpointURL ("/ajax/search/novels/" ++ query)
              (searchValues (searchArgs opts)),
            .GetWithContext ctx (searchTarget pkg ctx query opts)] } := by
  unfold searchTarget at h
  unfold Search searchTarget
  simp only [h]

theorem Search_of_parser_error {κ ε β : Type} (pkg : client.Package κ ε β) (ctx : κ)
    (query : String) (opts : List SearchOption) (body : β) (e : ε)
    (h : (pkg.For ctx).GetWithContext ctx (searchTarget pkg ctx query opts) = .ok body)
    (hp : pkg.ParseAPIResult body = .error e) :
    Search pkg ctx query opts
      = { result := ⟨none⟩, err := some e,
          calls := [.EndpointURL ("/ajax/search/novels/" ++ query)
              (searchValues (searchArgs opts)),
            .GetWithContext ctx (searchTarget pkg ctx query opts),
            .ParseAPIResult body, .Close body] } := by
  unfold searchTarget at h
  unfold Search searchTarget
  simp only [h, hp]

theorem Search_of_parsed {κ ε β : Type} (pkg : client.Package κ ε β) (ctx : κ)
    (query : String) (opts : List SearchOption) (body : β) (d : gjson.Result)
    (h : (pkg.For ctx).GetWithContext ctx (searchTarget pkg ctx query opts) = .ok body)
    (hp : pkg.ParseAPIResult body = .ok d) :
    Search pkg ctx query opts
      = { result := ⟨d⟩, err := none,
          calls := [.EndpointURL ("/ajax/search/novels/" ++ query)
              (searchValues (searchArgs opts)),
            .GetWithContext ctx (searchTarget pkg ctx query opts),
            .ParseAPIResult body, .Close body] } := by
  unfold searchTarget at h
  unfold Search searchTarget
  simp only [h, hp]

/-- C12: when `GetWithContext` returns the error `e` for the address `Search`
requests, `Search` returns `e` itself with the zero-valued SearchResult, and
hands nothing to the envelope parser. -/
theorem Search_transport_error {κ ε β : Type} (pkg : client.Package κ ε β) (ctx : κ)
    (query : String) (opts : List SearchOption) (e : ε)
    (h : (pkg.For ctx).GetWithContext ctx (searchTarget pkg ctx query opts) = .error e) :
    (Search pkg ctx query opts).err = some e ∧
    (Search pkg ctx query opts).result.JSON = none ∧
    (Search pkg ctx query opts).parsed = [] := by
  rw [Search_of_transport_error pkg ctx query opts e h]
  exact ⟨rfl, rfl, rfl⟩

/-- C12, on the transport that answers every request with `offline`. -/
theorem Search_transport_error_witness :
    (offline.For ()).GetWithContext () (searchTarget offline () "abc" [SearchOptionPage 2])
      = .error "offline" ∧
    (Search offline () "abc" [SearchOptionPage 2]).err = some "offline" ∧
    (Search offline () "abc" [SearchOptionPage 2]).result.JSON = none ∧
    (Search offline () "abc" [SearchOptionPage 2]).parsed = [] :=
  ⟨rfl, Search_transport_error offline () "abc" [SearchOptionPage 2] "offline" rfl⟩

/-- C13: when the request succeeds with a body, `Search` hands that body to
`ParseAPIResult`; if the parser returns the error `e`, `Search` returns `e`
itself with the zero-valued SearchResult, and if it returns the document `d`,
`Search` returns no error and a SearchResult that wraps `d`. -/
theorem Search_parser_outcome {κ ε β : Type} (pkg : client.Package κ ε β) (ctx : κ)
    (query : String) (opts : List SearchOption) (body : β)
    (h : (pkg.For ctx).GetWithContext ctx (searchTarget pkg ctx query opts) = .ok body) :
    (Search pkg ctx query opts).parsed = [body] ∧
    (∀ e : ε, pkg.ParseAPIResult body = .error e →
      (Search pkg ctx query opts).err = some e ∧
      (Search pkg ctx query opts).result.JSON = none) ∧
    (∀ d : gjson.Result, pkg.ParseAPIResult body = .ok d →
      (Search pkg ctx query opts).err = none ∧
      (Search pkg ctx query opts).result.JSON = d) := by
  refine ⟨?_, ?_, ?_⟩
  · cases hp : pkg.ParseAPIResult body with
    | error e =>
      rw [Search_of_parser_error pkg ctx query opts body e h hp]
      rfl
    | ok d =>
      rw [Search_of_parsed pkg ctx query opts body d h hp]
      rfl
  · intro e hp
    rw [Search_of_parser_error pkg ctx query opts body e h hp]
    exact ⟨rfl, rfl⟩
  · intro d hp
    rw [Search_of_parsed pkg ctx query opts body d h hp]
    exact ⟨rfl, rfl⟩

/-- C13, on a transport that serves a body: with a parser that fails with
`bad envelope` that error comes back with the zero result, and with a parser
that gives the specification's example document that document comes back
wrapped, without error. -/
theorem Search_parser_outcome_witness :
    ((served (.error "bad envelope")).For ()).GetWithContext ()
        (searchTarget (served (.error "bad envelope")) () "abc" []) = .ok "body" ∧
    (served (.error "bad envelope")).ParseAPIResult "body" = .error "bad envelope" ∧
    ((Search (served (.error "bad envelope")) () "abc" []).err = some "bad envelope" ∧
      (Search (served (.error "bad envelope")) () "abc" []).result.JSON = none) ∧
    ((served (.ok specDocument)).For ()).GetWithContext ()
        (searchTarget (served (.ok specDocument)) () "abc" []) = .ok "body" ∧
    (served (.ok specDocument)).ParseAPIResult "body" = .ok specDocument ∧
    ((Search (served (.ok specDocument)) () "abc" []).err = none ∧
      (Search (served (.ok specDocument)) () "abc" []).result.JSON = specDocument) :=
  ⟨rfl, rfl,
    (Search_parser_outcome (served (.error "bad envelope")) () "abc" [] "body" rfl).2.1
      "bad envelope" rfl,
    rfl, rfl,
    (Search_parser_outcome (served (.ok specDocument)) () "abc" [] "body" rfl).2.2
      specDocument rfl⟩

/-- C16: when the request succeeds with a body, `Search` closes that body
once, as the last thing it does and after the parser was called, whether the
parser succeeds or fails; when the request fails, `Search` closes nothing. -/
theorem Search_closes_body {κ ε β : Type} (pkg : client.Package κ ε β) (ctx : κ)
    (query : String) (opts : List SearchOption) :
    (∀ body : β,
      (pkg.For ctx).GetWithContext ctx (searchTarget pkg ctx query opts) = .ok body →
      (Search pkg ctx query opts).closed = [body] ∧
      (Search pkg ctx query opts).calls.getLast? = some (.Close body) ∧
      (Search pkg ctx query opts).calls.length = 4) ∧
    (∀ e : ε,
      (pkg.For ctx).GetWithContext ctx (searchTarget pkg ctx query opts) = .error e →
      (Search pkg ctx query opts).closed = []) := by
  refine ⟨?_, ?_⟩
  · intro body h
    cases hp : pkg.ParseAPIResult body with
    | error e =>
      rw [Search_of_parser_error pkg ctx query opts body e h hp]
      exact ⟨rfl, rfl, rfl⟩
    | ok d =>
      rw [Search_of_parsed pkg ctx query opts body d h hp]
      exact ⟨rfl, rfl, rfl⟩
  · intro e h
    rw [Search_of_transport_error pkg ctx query opts e h]
    rfl

/-- C16, on the three transports: a served body is closed once when the
parser gives a document and once when it fails, and the failing transport
leaves nothing closed. -/
theorem Search_closes_body_witness :
    (Search (served (.ok specDocument)) () "abc" []).closed = ["body"] ∧
    (Search (served (.error "bad envelope")) () "abc" []).closed = ["body"] ∧
    (Search offline () "abc" []).closed = [] :=
  ⟨((Search_closes_body (served (.ok specDocument)) () "abc" []).1 "body" rfl).1,
    ((Search_closes_body (served (.error "bad envelope")) () "abc" []).1 "body" rfl).1,
    (Search_closes_body offline () "abc" []).2 "offline" rfl⟩

end novel

/-! ## Theorems: the option mutators -/

namespace novel

theorem foldl_mutators (ms : List Mutator) (so : SearchOptions) :
    (ms.map Mutator.run).foldl (fun so i => i so) so
      = { Page := (lastPage ms).getD so.Page
          Order := (lastOrder ms).getD so.Order
          Lang := (lastLang ms).getD so.Lang
          WorkLang := (lastWorkLang ms).getD so.WorkLang } := by
  induction ms generalizing so with
  | nil => rfl
  | cons m rest ih =>
    simp only [List.map_cons, List.foldl_cons, ih, lastPage, lastOrder, lastLang,
      lastWorkLang]
    cases m <;> cases lastPage rest <;> cases lastOrder rest <;> cases lastLang rest <;>
      cases lastWorkLang rest <;> rfl

theorem run_comm (m1 m2 : Mutator) (h : m1.field ≠ m2.field) (so : SearchOptions) :
    m2.run (m1.run so) = m1.run (m2.run so) := by
  cases m1 <;> cases m2 <;> first | rfl | exact absurd rfl h

/-- C14: for every finite sequence of the four mutators applied in order to
the zero-valued options, each field of the result is the argument of the last
mutator of the sequence that targets it, or the zero value when none does; a
mutator sets its own field to its argument and leaves the other three as they
were; swapping two adjacent mutators of distinct fields leaves the result
unchanged; and of two mutators of the same field the later one wins. -/
theorem applyOptions_last_wins :
    (∀ ms : List Mutator, applyOptions (ms.map Mutator.run) = specOptions ms) ∧
    (∀ (so : SearchOptions) (page : Int),
      SearchOptionPage page so = { so with Page := page }) ∧
    (∀ (so : SearchOptions) (order : Order),
      SearchOptionOrder order so = { so with Order := order }) ∧
    (∀ (so : SearchOptions) (lang : Lang),
      SearchOptionLang lang so = { so with Lang := lang }) ∧
    (∀ (so : SearchOptions) (workLang : WorkLang),
      SearchOptionWorkLang workLang so = { so with WorkLang := workLang }) ∧
    (∀ (before after : List Mutator) (m1 m2 : Mutator), m1.field ≠ m2.field →
      applyOptions ((before ++ m1 :: m2 :: after).map Mutator.run)
        = applyOptions ((before ++ m2 :: m1 :: after).map Mutator.run)) ∧
    (∀ (before after : List Mutator) (m1 m2 : Mutator), m1.field = m2.field →
      applyOptions ((before ++ m1 :: m2 :: after).map Mutator.run)
        = applyOptions ((before ++ m2 :: after).map Mutator.run)) := by
  refine ⟨?_, fun _ _ => rfl, fun _ _ => rfl, fun _ _ => rfl, fun _ _ => rfl, ?_, ?_⟩
  · intro ms
    unfold applyOptions
    rw [foldl_mutators]
    rfl
  · intro before after m1 m2 h
    unfold applyOptions
    simp only [List.map_append, List.map_cons, List.foldl_append, List.foldl_cons]
    rw [run_comm m1 m2 h]
  · intro before after m1 m2 h
    unfold applyOptions
    simp only [List.map_append, List.map_cons, List.foldl_append, List.foldl_cons]
    have e : ∀ so : SearchOptions, m2.run (m1.run so) = m2.run so := by
      intro so
      cases m1 <;> cases m2 <;> first | rfl | exact absurd h (by simp [Mutator.field])
    rw [e]

/-- C14, on two sequences: page 3 and order `date_d` give the same options in
either order, and of page 3 then page 5 the page left is 5. -/
theorem applyOptions_last_wins_witness :
    (Mutator.Page 3).field ≠ (Mutator.Order OrderDateDescending).field ∧
    applyOptions (([] ++ Mutator.Page 3 :: Mutator.Order OrderDateDescending :: []).map
        Mutator.run)
      = applyOptions (([] ++ Mutator.Order OrderDateDescending :: Mutator.Page 3 :: []).map
        Mutator.run) ∧
    (Mutator.Page 3).field = (Mutator.Page 5).field ∧
    applyOptions (([] ++ Mutator.Page 3 :: Mutator.Page 5 :: []).map Mutator.run)
      = applyOptions (([] ++ Mutator.Page 5 :: []).map Mutator.run) :=
  ⟨by decide,
    applyOptions_last_wins.2.2.2.2.2.1 [] [] (Mutator.Page 3)
      (Mutator.Order OrderDateDescending) (by decide),
    rfl,
    applyOptions_last_wins.2.2.2.2.2.2 [] [] (Mutator.Page 3) (Mutator.Page 5) rfl⟩

end novel

/-! ## Theorems: the `Description` key, the capacity and absent data -/

namespace novel

theorem Get_Description_object (raw : String) (members : List (String × gjson.Value)) :
    gjson.Result.Get (some (.object raw members)) "Description"
      = (members.find? (fun kv => kv.1 == "Description")).map (fun kv => kv.2) := rfl

theorem specProjection_DescriptionRead (value : gjson.Result) :
    DescriptionRead value (specProjection value) := by
  refine ⟨rfl, ?_⟩
  intro raw members hv
  have hd : (specProjection value).Description = gjson.Result.String
      ((members.find? (fun kv => kv.1 == "Description")).map (fun kv => kv.2)) := by
    show gjson.Result.String (gjson.Result.Get value "Description") = _
    rw [hv, Get_Description_object]
  refine ⟨hd, ?_⟩
  intro h
  rw [hd]
  have hnone : members.find? (fun kv => kv.1 == "Description") = none := by
    rw [List.find?_eq_none]
    intro kv hkv
    simpa using h kv hkv
  rw [hnone]
  rfl

/-- C15: for every entry of `novel.data`, the Description of the Novel
produced for it is the string value at the key spelled `Description`; for an
object it is that of the first member of exactly that name, so an entry with
no such member has Description empty, a member named `description`
notwithstanding, and an entry with both spellings has the value under
`Description`: so it is of the Novel the iterator appends for an entry, of the
Novels the loop appends over an array `novel.data`, one per entry in order,
and of the Novels `Novels()` returns when the capacity read at `#` is one
`make` accepts; on the entries `{"description":"d"}` and
`{"description":"d","Description":"D"}` `Novels()` returns Descriptions empty
and `D`. -/
theorem Novels_Description_key :
    (∀ (ret : List Novel) (key value : gjson.Result), ∃ n : Novel,
      novelsIterator ret key value = (ret ++ [n], true) ∧
      n.Description = gjson.Result.String (gjson.Result.Get value "Description")) ∧
    (∀ (ret : List Novel) (key : gjson.Result) (raw : String)
      (members : List (String × gjson.Value)), ∃ n : Novel,
      novelsIterator ret key (some (.object raw members)) = (ret ++ [n], true) ∧
      n.Description = gjson.Result.String
        ((members.find? (fun kv => kv.1 == "Description")).map (fun kv => kv.2)) ∧
      ((∀ kv ∈ members, kv.1 ≠ "Description") → n.Description = "")) ∧
    (∃ n : Novel, novelsIterator [] none (some lowerDescriptionEntry) = ([n], true) ∧
      n.Description = "") ∧
    (∃ n : Novel, novelsIterator [] none (some bothDescriptionsEntry) = ([n], true) ∧
      n.Description = "D") ∧
    (∀ (r : SearchResult) (raw : String) (elems : List gjson.Value) (ret : List Novel),
      gjson.Result.Get r.JSON "novel.data" = some (.array raw elems) →
      ∃ ns, r.ForEach novelsIterator ret = ret ++ ns ∧
        List.Forall₂ (fun v n => DescriptionRead (some v) n) elems ns) ∧
    (∀ (maxCap : Nat) (r : SearchResult) (raw : String) (elems : List gjson.Value),
      gjson.Result.Get r.JSON "novel.data" = some (.array raw elems) →
      0 ≤ r.novelsCap → r.novelsCap ≤ maxCap →
      ∃ ns, r.Novels maxCap = some ns ∧
        List.Forall₂ (fun v n => DescriptionRead (some v) n) elems ns) ∧
    (∀ maxCap : Nat, SearchResult.Novels maxCap ⟨descriptionDocument⟩
      = some [{ ID := "", Title := "", Description := "", Author := ⟨"", ""⟩,
                TextCount := 0, BookmarkCount := 0, Series := ⟨"", ""⟩, Tags := [] },
              { ID := "", Title := "", Description := "D", Author := ⟨"", ""⟩,
                TextCount := 0, BookmarkCount := 0, Series := ⟨"", ""⟩,
                Tags := [] }]) := by
  refine ⟨?_, ?_, ?_, ?_, ?_, ?_, ?_⟩
  · intro ret key value
    exact ⟨specProjection value, novelsIterator_eq ret key value, rfl⟩
  · intro ret key raw members
    have h := (specProjection_DescriptionRead (some (.object raw members))).2 raw members rfl
    exact ⟨specProjection (some (.object raw members)), novelsIterator_eq ret key _, h.1,
      h.2⟩
  · exact ⟨specProjection (some lowerDescriptionEntry), novelsIterator_eq _ _ _, by decide⟩
  · exact ⟨specProjection (some bothDescriptionsEntry), novelsIterator_eq _ _ _, by decide⟩
  · intro r raw elems ret hdata
    exact ForEach_array_forall₂ (fun v n => DescriptionRead (some v) n)
      (fun v => specProjection_DescriptionRead (some v)) r raw elems ret hdata
  · intro maxCap r raw elems hdata hlow hhigh
    exact Novels_array_forall₂ (fun v n => DescriptionRead (some v) n)
      (fun v => specProjection_DescriptionRead (some v)) maxCap r raw elems hdata hlow
      hhigh
  · intro maxCap
    rw [Novels_of_array maxCap ⟨descriptionDocument⟩ _
      [lowerDescriptionEntry, bothDescriptionsEntry] rfl (by decide)
      (by show (0 : Int) ≤ maxCap; omega)]
    decide

/-- C15, on the entry `{"description":"d"}` and on the document of the two
entries: none of the members of the entry is named `Description` and the
Novel appended for it has Description empty, and `Novels()` returns for the
two entries of the document Novels whose Description is read at
`Description`. -/
theorem Novels_Description_key_witness :
    ((∀ kv ∈ [("description", gjson.Value.string "d")], kv.1 ≠ "Description") ∧
    ∃ n : Novel,
      novelsIterator [] none
          (some (.object "\x7b\"description\":\"d\"\x7d" [("description", .string "d")]))
        = ([] ++ [n], true) ∧
      n.Description = "") ∧
    ((∃ raw, gjson.Result.Get descriptionDocument "novel.data"
      = some (.array raw [lowerDescriptionEntry, bothDescriptionsEntry])) ∧
    (0 : Int) ≤ SearchResult.novelsCap ⟨descriptionDocument⟩ ∧
    SearchResult.novelsCap ⟨descriptionDocument⟩ ≤ (0 : Nat) ∧
    ∃ ns, SearchResult.Novels 0 ⟨descriptionDocument⟩ = some ns ∧
      List.Forall₂ (fun v n => DescriptionRead (some v) n)
        [lowerDescriptionEntry, bothDescriptionsEntry] ns) := by
  have h : ∀ kv ∈ [("description", gjson.Value.string "d")], kv.1 ≠ "Description" := by
    intro kv hkv
    rw [List.mem_singleton] at hkv
    rw [hkv]
    decide
  refine ⟨⟨h, ?_⟩, ⟨⟨_, rfl⟩, by decide, by decide, ?_⟩⟩
  · obtain ⟨n, hn, _, hzero⟩ := Novels_Description_key.2.1 [] none
      "\x7b\"description\":\"d\"\x7d" [("description", .string "d")]
    exact ⟨n, hn, hzero h⟩
  · exact Novels_Description_key.2.2.2.2.2.1 0 ⟨descriptionDocument⟩ _
      [lowerDescriptionEntry, bothDescriptionsEntry] rfl (by decide) (by decide)

/-- C17: on the document `{"novel":{"data":[A,B,C]}}` the capacity `Novels()`
asks `make` for, read at `#` of the document, is 0, while `novel.data` has
three entries and `Novels()` returns three Novels. -/
theorem Novels_capacity_not_length (maxCap : Nat) :
    (∃ raw, gjson.Result.Get threeDocument "novel.data"
      = some (.array raw [idEntry "a", idEntry "b", idEntry "c"])) ∧
    SearchResult.novelsCap ⟨threeDocument⟩ = 0 ∧
    ∃ ns, SearchResult.Novels maxCap ⟨threeDocument⟩ = some ns ∧ ns.length = 3 := by
  refine ⟨⟨_, rfl⟩, by decide, _, Novels_of_array maxCap ⟨threeDocument⟩ _
    [idEntry "a", idEntry "b", idEntry "c"] rfl (by decide)
    (by show (0 : Int) ≤ maxCap; omega), rfl⟩

theorem ForEach_absent {σ : Type} (r : SearchResult)
    (iterator : σ → gjson.Result → gjson.Result → σ × Bool) (s : σ)
    (h : gjson.Result.Get r.JSON "novel.data" = none) :
    r.ForEach iterator s = s := by
  unfold SearchResult.ForEach
  rw [h]
  rfl

theorem Novels_absent (maxCap : Nat) (r : SearchResult)
    (h : gjson.Result.Get r.JSON "novel.data" = none)
    (hlow : 0 ≤ r.novelsCap) (hhigh : r.novelsCap ≤ maxCap) :
    r.Novels maxCap = some [] := by
  unfold SearchResult.Novels makeSlice
  have hc : ¬ (r.novelsCap < 0 ∨ (maxCap : Int) < r.novelsCap) := by omega
  simp only [hc, if_false]
  rw [ForEach_absent r novelsIterator [] h]

/-- C18: on the document `{"#":-1}`, in which `novel.data` is absent,
`ForEach` leaves a recording iterator uncalled, but `Novels()` asks `make` for
the capacity -1 it reads at `#` and panics, whatever the runtime can allocate;
on the zero-valued SearchResult `Novels()` returns the empty sequence. -/
theorem Novels_absent_negative_hint (maxCap : Nat) :
    gjson.Result.Get hintOnlyDocument "novel.data" = none ∧
    SearchResult.ForEach ⟨hintOnlyDocument⟩
        (gjson.recording (fun (n : Nat) (_ _ : gjson.Result) => (n + 1, true))) (0, [])
      = (0, []) ∧
    SearchResult.novelsCap ⟨hintOnlyDocument⟩ = -1 ∧
    SearchResult.Novels maxCap ⟨hintOnlyDocument⟩ = none ∧
    SearchResult.Novels maxCap ⟨none⟩ = some [] :=
  ⟨rfl, rfl, by decide, Novels_negative_cap maxCap _ (by decide),
    Novels_absent maxCap ⟨none⟩ rfl (by decide) (by show (0 : Int) ≤ maxCap; omega)⟩

end novel
